import Mathlib

/-!
Verification of the Mezzano image loader (KBoot) against its specification.

Shallow embedding conventions:
* C `uint64_t` values are `Nat`s; wherever C arithmetic can wrap, the
  embedding applies `% 2^64` explicitly.
* C `int64_t` values are `Int`s; the bit pattern of an `int64_t` is
  recovered with `toUInt64n`, and a `uint64_t` is reinterpreted as
  `int64_t` with `toInt64`.
* Arithmetic right shift by one on `int64_t` is floor division by 2,
  which for `Int` is `/` (Euclidean division by a positive number).
* C loops are rendered as structurally recursive functions on an explicit
  fuel argument chosen so that fuel exhaustion coincides with the loop's
  own exit condition; the top-level wrappers supply that fuel.
* Bit-field extraction (`>> k`, `& (2^k - 1)`) is rendered as division
  and remainder by the corresponding powers of two.
-/

namespace Mezzano

def PAGE_SIZE : Nat := 4096

/-- Reinterpret a `uint64_t` bit pattern as the value of the `int64_t`
with the same two's-complement representation. -/
def toInt64 (x : Nat) : Int :=
  if x % 2 ^ 64 < 2 ^ 63 then ((x % 2 ^ 64 : Nat) : Int)
  else ((x % 2 ^ 64 : Nat) : Int) - 2 ^ 64

/-- The `uint64_t` bit pattern (two's complement) of an integer value. -/
def toUInt64n (i : Int) : Nat := (i % (2 ^ 64 : Int)).toNat

/-- `fixnum` from include/loader/mezzano.h: `return val << 1;` on
`int64_t`, yielding a `uint64_t`: the bit pattern of `2 * val`. -/
def fixnum (val : Int) : Nat := toUInt64n (2 * val)

/-- `unfixnum` from include/loader/mezzano.h: `((int64_t)fix) >> 1`,
a sign-extending arithmetic right shift by one. -/
def unfixnum (fix : Nat) : Int := toInt64 fix / 2

/-! ## Kernel-visible memory map (loader/mezzano.c) -/

def mezzano_max_memory_map_size : Nat := 32
def log2_4k_page : Nat := 12
def mezzano_n_buddy_bins_32_bit : Nat := 32 - log2_4k_page
def mezzano_n_buddy_bins_64_bit : Nat := 39 - log2_4k_page

structure mezzano_memory_map_entry where
  start : Nat
  end_ : Nat
deriving DecidableEq

structure mezzano_buddy_bin where
  first_page : Nat
  count : Nat
deriving DecidableEq

/-- The parts of `mezzano_boot_information_t` that the verified code
touches: the memory map (a 32-entry array modelled as a function out of
`Nat` together with the in-use count) and the two buddy-bin arrays. -/
structure mezzano_boot_information where
  memory_map : Nat → mezzano_memory_map_entry
  n_memory_map_entries : Nat
  buddy_bin_32 : Nat → mezzano_buddy_bin
  buddy_bin_64 : Nat → mezzano_buddy_bin

/-- Point update of an array modelled as a function. -/
def updf {α : Type} (f : Nat → α) (i : Nat) (v : α) : Nat → α :=
  fun j => if j = i then v else f j

/-- A boot-information page after `memset(boot_info, 0, PAGE_SIZE)`:
empty memory map, zeroed bins. -/
def emptyBootInfo : mezzano_boot_information where
  memory_map := fun _ => ⟨0, 0⟩
  n_memory_map_entries := 0
  buddy_bin_32 := fun _ => ⟨0, 0⟩
  buddy_bin_64 := fun _ => ⟨0, 0⟩

/-- `in_range` from loader/mezzano.c: `start <= value && value <= end`. -/
def in_range (start end_ value : Nat) : Bool :=
  decide (start ≤ value) && decide (value ≤ end_)

/-- `crunch_memory_map` from loader/mezzano.c: the merge pass is a
`// TODO.` no-op in the source. -/
def crunch_memory_map (boot_info : mezzano_boot_information) :
    mezzano_boot_information :=
  boot_info

/-- The tail of `mezzano_insert_into_memory_map` reached when no merge
happened: drop the region if 32 entries are present, otherwise
`memmove` entries `[i, n)` up one slot, write the new region at `i`,
and bump `n_memory_map_entries`. -/
def mezzano_insert_new_entry (boot_info : mezzano_boot_information)
    (start end_ i : Nat) : mezzano_boot_information :=
  if boot_info.n_memory_map_entries = mezzano_max_memory_map_size then
    boot_info
  else
    crunch_memory_map
      { boot_info with
        memory_map := fun j =>
          if j < i then boot_info.memory_map j
          else if j = i then ⟨start, end_⟩
          else if j ≤ boot_info.n_memory_map_entries then boot_info.memory_map (j - 1)
          else boot_info.memory_map j
        n_memory_map_entries := boot_info.n_memory_map_entries + 1 }

/-- The search loop of `mezzano_insert_into_memory_map`, with
`fuel = n_memory_map_entries - i` so that fuel exhaustion is exactly
the loop exit `i = n`.  Breaking before an entry whose start exceeds
`end_` inserts there; an overlap via `in_range` merges in place (then
runs `crunch_memory_map`); otherwise advance `i`. -/
def mezzano_insert_loop (boot_info : mezzano_boot_information)
    (start end_ : Nat) : Nat → Nat → mezzano_boot_information
  | i, 0 => mezzano_insert_new_entry boot_info start end_ i
  | i, fuel + 1 =>
    let e := boot_info.memory_map i
    if e.start > end_ then
      mezzano_insert_new_entry boot_info start end_ i
    else if in_range e.start e.end_ start || in_range e.start e.end_ end_ then
      crunch_memory_map
        { boot_info with
          memory_map := updf boot_info.memory_map i
            ⟨if e.start > start then start else e.start,
             if e.end_ < end_ then end_ else e.end_⟩ }
    else
      mezzano_insert_loop boot_info start end_ (i + 1) fuel

/-- `mezzano_insert_into_memory_map` from loader/mezzano.c. -/
def mezzano_insert_into_memory_map (boot_info : mezzano_boot_information)
    (start end_ : Nat) : mezzano_boot_information :=
  mezzano_insert_loop boot_info start end_ 0 boot_info.n_memory_map_entries

/-- Run a sequence of `(start, end)` inserts from the zeroed page. -/
def insertSeq (l : List (Nat × Nat)) : mezzano_boot_information :=
  l.foldl (fun b p => mezzano_insert_into_memory_map b p.1 p.2) emptyBootInfo

/-! ## Image-header validation (config_cmd_mezzano, loader/mezzano.c) -/

/-- The bytes of `"\x00MezzanineImage\x00"`. -/
def mezzano_magic : List Nat :=
  [0, 77, 101, 122, 122, 97, 110, 105, 110, 101, 73, 109, 97, 103, 101, 0]

def mezzano_protocol_major : Nat := 0
def mezzano_protocol_minor : Nat := 26

/-- The fields of `mezzano_header_t` the validation reads. -/
structure mezzano_header where
  magic : List Nat
  protocol_major : Nat
  protocol_minor : Nat

/-- The header-validation portion of `config_cmd_mezzano`: reject on a
magic mismatch, then on `protocol_major != mezzano_protocol_major`, then
on `(major == 0 && minor != supported) || (major != 0 && minor > supported)`.
Returns whether the command proceeds past these gates. -/
def config_cmd_mezzano_validate_header (data : mezzano_header) : Bool :=
  if data.magic ≠ mezzano_magic then false
  else if data.protocol_major ≠ mezzano_protocol_major then false
  else if (data.protocol_major = 0 ∧ data.protocol_minor ≠ mezzano_protocol_minor) ∨
      (data.protocol_major ≠ 0 ∧ data.protocol_minor > mezzano_protocol_minor) then false
  else true

/-! ## Page-info array and buddy allocator (loader/mezzano.c)

The page-info records live in kernel-virtual memory and are accessed
through `mmu_memcpy_from`/`mmu_memcpy_to` at
`mezzano_physical_info_address + (page / PAGE_SIZE) * 32 + field offset`;
the embedding models that array directly as a map from the info slot
`page / PAGE_SIZE` to the four-word record. -/

def page_type_other : Nat := 0
def page_type_free : Nat := 1
def page_type_wired : Nat := 2
def page_type_wired_backing : Nat := 3
def page_type_active : Nat := 4
def page_type_active_writeback : Nat := 5
def page_type_inactive_writeback : Nat := 6
def page_type_page_table : Nat := 7

structure mezzano_page_info where
  flags : Nat
  extra : Nat
  next : Nat
  prev : Nat
deriving DecidableEq

/-- The state `buddy_free_page` runs over: the boot-information page
(memory map and buddy bins) plus the page-info array. -/
structure BuddyState where
  boot_info : mezzano_boot_information
  page_info : Nat → mezzano_page_info

def page_info_flags (s : BuddyState) (page : Nat) : Nat :=
  (s.page_info (page / PAGE_SIZE)).flags

def set_page_info_flags (s : BuddyState) (page value : Nat) : BuddyState :=
  let pi := s.page_info (page / PAGE_SIZE)
  { s with page_info := updf s.page_info (page / PAGE_SIZE) { pi with flags := value } }

/-- `page_info_type`: `unfixnum(flags) & 0xFF`. -/
def page_info_type (s : BuddyState) (page : Nat) : Nat :=
  toUInt64n (unfixnum (page_info_flags s page)) % 256

/-- `set_page_info_type`: `flags &= ~0xFF; flags |= value;` re-encoded
as a fixnum.  All call sites pass an enum value below 256, so the
bitwise-or is addition into the cleared low byte. -/
def set_page_info_type (s : BuddyState) (page value : Nat) : BuddyState :=
  let flags := toUInt64n (unfixnum (page_info_flags s page))
  set_page_info_flags s page (fixnum (toInt64 (flags - flags % 256 + value)))

/-- `page_info_bin`: `(unfixnum(flags) >> 8) & 0xFF`. -/
def page_info_bin (s : BuddyState) (page : Nat) : Nat :=
  toUInt64n (unfixnum (page_info_flags s page)) / 256 % 256

/-- `set_page_info_bin`: `flags &= ~(0xFF << 8); flags |= value << 8;`
re-encoded as a fixnum; bin indices are below 256. -/
def set_page_info_bin (s : BuddyState) (page value : Nat) : BuddyState :=
  let flags := toUInt64n (unfixnum (page_info_flags s page))
  set_page_info_flags s page
    (fixnum (toInt64 (flags - flags / 256 % 256 * 256 + value * 256)))

def set_page_info_extra (s : BuddyState) (page value : Nat) : BuddyState :=
  let pi := s.page_info (page / PAGE_SIZE)
  { s with page_info := updf s.page_info (page / PAGE_SIZE) { pi with extra := value } }

def page_info_next (s : BuddyState) (page : Nat) : Nat :=
  (s.page_info (page / PAGE_SIZE)).next

def set_page_info_next (s : BuddyState) (page value : Nat) : BuddyState :=
  let pi := s.page_info (page / PAGE_SIZE)
  { s with page_info := updf s.page_info (page / PAGE_SIZE) { pi with next := value } }

def page_info_prev (s : BuddyState) (page : Nat) : Nat :=
  (s.page_info (page / PAGE_SIZE)).prev

def set_page_info_prev (s : BuddyState) (page value : Nat) : BuddyState :=
  let pi := s.page_info (page / PAGE_SIZE)
  { s with page_info := updf s.page_info (page / PAGE_SIZE) { pi with prev := value } }

/-- `buddy` from loader/mezzano.c: `x ^ ((phys_ptr_t)1 << (k + log2_4k_page))`. -/
def buddy (k x : Nat) : Nat := x ^^^ 2 ^ (k + log2_4k_page)

/-- `page_exists`: scan the memory map for a region containing `page`. -/
def page_exists (boot_info : mezzano_boot_information) (page : Nat) : Bool :=
  (List.range boot_info.n_memory_map_entries).any fun i =>
    decide ((boot_info.memory_map i).start ≤ page) &&
      decide (page < (boot_info.memory_map i).end_)

/-- Read `buddies[k]`, where `buddies` is `buddy_bin_32` when
`use32` and `buddy_bin_64` otherwise. -/
def buddies_get (s : BuddyState) (use32 : Bool) (k : Nat) : mezzano_buddy_bin :=
  if use32 then s.boot_info.buddy_bin_32 k else s.boot_info.buddy_bin_64 k

/-- Write `buddies[k]`. -/
def buddies_set (s : BuddyState) (use32 : Bool) (k : Nat)
    (v : mezzano_buddy_bin) : BuddyState :=
  if use32 then
    { s with boot_info :=
        { s.boot_info with buddy_bin_32 := updf s.boot_info.buddy_bin_32 k v } }
  else
    { s with boot_info :=
        { s.boot_info with buddy_bin_64 := updf s.boot_info.buddy_bin_64 k v } }

/-- The `while(1)` coalescing loop of `buddy_free_page`.  Fuel is the
number of remaining bins `m - k`; the wrapper passes `m` at `k = 0`, so
fuel exhaustion coincides with the loop's own `k == m` stop. -/
def buddy_free_loop (use32 : Bool) (m nil : Nat) :
    Nat → BuddyState → Nat → Nat → BuddyState × Nat × Nat
  | 0, s, k, l => (s, k, l)
  | fuel + 1, s, k, l =>
    let p := buddy k l
    if k = m ∨ page_exists s.boot_info p = false ∨
        page_info_type s p ≠ page_type_free ∨
        (page_info_type s p = page_type_free ∧ page_info_bin s p ≠ k) then
      (s, k, l)
    else
      -- remove buddy from avail[k]
      let s1 := if (buddies_get s use32 k).first_page = fixnum (toInt64 (p / PAGE_SIZE)) then
          buddies_set s use32 k
            { buddies_get s use32 k with first_page := page_info_next s p }
        else s
      let s2 := if page_info_next s1 p ≠ nil then
          set_page_info_prev s1 (toUInt64n (unfixnum (page_info_next s1 p) * (PAGE_SIZE : Int)))
            (page_info_prev s1 p)
        else s1
      let s3 := if page_info_prev s2 p ≠ nil then
          set_page_info_next s2 (toUInt64n (unfixnum (page_info_prev s2 p) * (PAGE_SIZE : Int)))
            (page_info_next s2 p)
        else s2
      let s4 := buddies_set s3 use32 k
        { buddies_get s3 use32 k with
          count := ((buddies_get s3 use32 k).count + 2 ^ 64 - fixnum 1) % 2 ^ 64 }
      buddy_free_loop use32 m nil fuel s4 (k + 1) (if p < l then p else l)

/-- `buddy_free_page` from loader/mezzano.c. -/
def buddy_free_page (s : BuddyState) (nil l : Nat) : BuddyState :=
  let use32 := decide (l < 0x100000000)
  let m := if use32 then mezzano_n_buddy_bins_32_bit - 1 else mezzano_n_buddy_bins_64_bit - 1
  match buddy_free_loop use32 m nil m s 0 l with
  | (s, k, l) =>
    let s := set_page_info_type s l page_type_free
    let s := set_page_info_bin s l k
    let s := set_page_info_next s l (buddies_get s use32 k).first_page
    let s := set_page_info_prev s l nil
    let s := if (buddies_get s use32 k).first_page ≠ nil then
        set_page_info_prev s
          (toUInt64n (unfixnum (buddies_get s use32 k).first_page * (PAGE_SIZE : Int)))
          (fixnum (toInt64 (l / PAGE_SIZE)))
      else s
    let s := buddies_set s use32 k
      { buddies_get s use32 k with first_page := fixnum (toInt64 (l / PAGE_SIZE)) }
    let s := buddies_set s use32 k
      { buddies_get s use32 k with
        count := ((buddies_get s use32 k).count + fixnum 1) % 2 ^ 64 }
    s

/-- The coalescing loop exactly as the claim describes it: stop when `k`
is the maximum index, the buddy is outside the memory map, its type is
not free, or its bin is not exactly `k`; otherwise unlink the buddy
(patch `first_page`, `next`, `prev` around it), decrement the bin count
by `fixnum 1`, replace `L` by `min(L, P)`, and increment `k`. -/
def buddy_free_loop_described (use32 : Bool) (m nil : Nat) :
    Nat → BuddyState → Nat → Nat → BuddyState × Nat × Nat
  | 0, s, k, l => (s, k, l)
  | fuel + 1, s, k, l =>
    let p := buddy k l
    if k = m ∨ page_exists s.boot_info p = false ∨
        page_info_type s p ≠ page_type_free ∨ page_info_bin s p ≠ k then
      (s, k, l)
    else
      let s1 := if (buddies_get s use32 k).first_page = fixnum (toInt64 (p / PAGE_SIZE)) then
          buddies_set s use32 k
            { buddies_get s use32 k with first_page := page_info_next s p }
        else s
      let s2 := if page_info_next s1 p ≠ nil then
          set_page_info_prev s1 (toUInt64n (unfixnum (page_info_next s1 p) * (PAGE_SIZE : Int)))
            (page_info_prev s1 p)
        else s1
      let s3 := if page_info_prev s2 p ≠ nil then
          set_page_info_next s2 (toUInt64n (unfixnum (page_info_prev s2 p) * (PAGE_SIZE : Int)))
            (page_info_next s2 p)
        else s2
      let s4 := buddies_set s3 use32 k
        { buddies_get s3 use32 k with
          count := ((buddies_get s3 use32 k).count + 2 ^ 64 - fixnum 1) % 2 ^ 64 }
      buddy_free_loop_described use32 m nil fuel s4 (k + 1) (min l p)

/-- `buddy_free_page` as the claim describes it: bin32 with maximum
index 19 below 4 GiB, bin64 with maximum index 26 otherwise, the
described loop from order 0, then link `L` at the head of bin `k`. -/
def buddy_free_page_described (s : BuddyState) (nil l : Nat) : BuddyState :=
  let use32 := decide (l < 0x100000000)
  let m := if use32 then 19 else 26
  match buddy_free_loop_described use32 m nil m s 0 l with
  | (s, k, l) =>
    let s := set_page_info_type s l page_type_free
    let s := set_page_info_bin s l k
    let s := set_page_info_next s l (buddies_get s use32 k).first_page
    let s := set_page_info_prev s l nil
    let s := if (buddies_get s use32 k).first_page ≠ nil then
        set_page_info_prev s
          (toUInt64n (unfixnum (buddies_get s use32 k).first_page * (PAGE_SIZE : Int)))
          (fixnum (toInt64 (l / PAGE_SIZE)))
      else s
    let s := buddies_set s use32 k
      { buddies_get s use32 k with first_page := fixnum (toInt64 (l / PAGE_SIZE)) }
    let s := buddies_set s use32 k
      { buddies_get s use32 k with
        count := ((buddies_get s use32 k).count + fixnum 1) % 2 ^ 64 }
    s

/-- An empty allocator over the single RAM region
`[0x200000, 0x202000)`: every bin head is `nil = 1`, every count
`fixnum 0`, every page-info record zeroed. -/
def buddyInit : BuddyState where
  boot_info :=
    { memory_map := updf (fun _ => ⟨0, 0⟩) 0 ⟨0x200000, 0x202000⟩
      n_memory_map_entries := 1
      buddy_bin_32 := fun _ => ⟨1, 0⟩
      buddy_bin_64 := fun _ => ⟨1, 0⟩ }
  page_info := fun _ => ⟨0, 0, 0, 0⟩

/-! ## Wired-page loading (`load_page`, loader/mezzano.c) -/

def BLOCK_MAP_PRESENT : Nat := 0x01
def BLOCK_MAP_WRITABLE : Nat := 0x02
def BLOCK_MAP_ZERO_FILL : Nat := 0x04
def BLOCK_MAP_WIRED : Nat := 0x10
def BLOCK_MAP_TRACK_DIRTY : Nat := 0x20
def BLOCK_MAP_TRANSIENT : Nat := 0x40
def BLOCK_MAP_ID_SHIFT : Nat := 8

/-- `info & flag` as a test, for `flag` one of the single-bit block-map
flags above. -/
def hasFlag (info flag : Nat) : Prop := info / flag % 2 = 1

instance (info flag : Nat) : Decidable (hasFlag info flag) := by
  unfold hasFlag; infer_instance

def PAGE_CHUNK_SIZE : Nat := 8 * 1024 * 1024

structure page_chunk where
  bootloader_virt : Nat
  phys_addr : Nat
  remaining : Nat
deriving DecidableEq

/-- What `load_page` put into an allocated frame. -/
inductive PageData
  | Untouched
  | Zeroed
  | FromBlock (id : Nat)
deriving DecidableEq

/-- The loader-side state `load_page` reads and writes: the
`mezzano_loader_t` counters and flag, the page chunk, the page-info
array (inside a `BuddyState`), the platform page allocator (modelled as
a bump pointer with identity loader mapping), the mappings established
through `mmu_map`, and the bytes written through the chunk pointer
(per frame: zero-filled or read from a disk block). -/
structure LoadState where
  freestanding : Bool
  page_count : Nat
  n_pages_loaded : Nat
  buddy : BuddyState
  chunk : page_chunk
  allocNext : Nat
  mappings : List (Nat × Nat × Nat × Bool)
  pageData : Nat → PageData

/-- The chunk-refill step of `load_page`: when the current chunk is
exhausted, `memory_alloc` a fresh chunk of
`min(PAGE_CHUNK_SIZE, (page_count - n_pages_loaded) * PAGE_SIZE)` bytes
(the allocator hands out fresh physical memory, identity-visible to the
loader). -/
def load_page_refill (st : LoadState) : LoadState :=
  if st.chunk.remaining = 0 then
    let chunk_size := min PAGE_CHUNK_SIZE ((st.page_count - st.n_pages_loaded) * PAGE_SIZE)
    { st with
      chunk := ⟨st.allocNext, st.allocNext, chunk_size⟩
      allocNext := st.allocNext + chunk_size }
  else st

/-- Slice one 4 KiB frame off the front of the chunk. -/
def load_page_consume (st : LoadState) : LoadState :=
  { st with chunk := ⟨st.chunk.bootloader_virt + PAGE_SIZE, st.chunk.phys_addr + PAGE_SIZE,
      st.chunk.remaining - PAGE_SIZE⟩ }

/-- The `mmu_map` call of `load_page`: map `virtual` to the frame,
writable iff `(info & BLOCK_MAP_WRITABLE) && !(info & BLOCK_MAP_TRACK_DIRTY)`. -/
def load_page_record_map (st : LoadState) (info virtual phys_addr : Nat) : LoadState :=
  { st with mappings := (virtual, phys_addr, PAGE_SIZE,
      decide (info / BLOCK_MAP_WRITABLE % 2 = 1 ∧ ¬ info / BLOCK_MAP_TRACK_DIRTY % 2 = 1)) ::
        st.mappings }

/-- The page-info writes of `load_page`: `extra = fixnum(block id)`,
then type `wired` when the entry's WIRED flag is set and `active`
otherwise. -/
def load_page_set_info (st : LoadState) (info phys_addr : Nat) : LoadState :=
  let st := { st with
    buddy := set_page_info_extra st.buddy phys_addr
      (fixnum (toInt64 (info / 2 ^ BLOCK_MAP_ID_SHIFT))) }
  if info / BLOCK_MAP_WIRED % 2 = 1 then
    { st with buddy := set_page_info_type st.buddy phys_addr page_type_wired }
  else
    { st with buddy := set_page_info_type st.buddy phys_addr page_type_active }

/-- The content write of `load_page`: zero-fill through the chunk
pointer, or read the 4 KiB data block from disk. -/
def load_page_fill (st : LoadState) (info bootloader_virt : Nat) : LoadState :=
  if info / BLOCK_MAP_ZERO_FILL % 2 = 1 then
    { st with pageData := updf st.pageData bootloader_virt PageData.Zeroed }
  else
    let pd := updf st.pageData bootloader_virt (PageData.FromBlock (info / 2 ^ BLOCK_MAP_ID_SHIFT))
    { st with pageData := pd }

/-- `load_page` from loader/mezzano.c (part of the wired-page loader):
skip non-PRESENT or TRANSIENT entries; refill the 8 MiB chunk when
empty; slice one 4 KiB frame; map it writable iff
`WRITABLE && !TRACK_DIRTY`; record `fixnum(block id)` in the page-info
`extra` field; set the page-info type from the entry's WIRED bit; then
zero-fill or read the data block; finally bump `n_pages_loaded`. -/
def load_page (st : LoadState) (info virtual : Nat) : LoadState :=
  if info / BLOCK_MAP_PRESENT % 2 = 0 ∨ info / BLOCK_MAP_TRANSIENT % 2 = 1 then
    st
  else
    let st1 := load_page_refill st
    let phys_addr := st1.chunk.phys_addr
    let bootloader_virt := st1.chunk.bootloader_virt
    let st2 := load_page_fill
      (load_page_set_info (load_page_record_map (load_page_consume st1) info virtual phys_addr)
        info phys_addr)
      info bootloader_virt
    { st2 with n_pages_loaded := st2.n_pages_loaded + 1 }

/-- The physical frame `load_page` slices off for a loaded entry. -/
def load_page_frame (st : LoadState) : Nat :=
  if st.chunk.remaining = 0 then st.allocNext else st.chunk.phys_addr

/-- A freestanding-mode loader state about to load its only page. -/
def loadInit : LoadState where
  freestanding := true
  page_count := 1
  n_pages_loaded := 0
  buddy := buddyInit
  chunk := ⟨0, 0, 0⟩
  allocNext := 0x300000
  mappings := []
  pageData := fun _ => PageData.Untouched

/-! ## Block-map walker (`read_info_for_page`, source/loader/mezzano.c)

`read_cached_block` returns the 4 KiB block with the given disk-block id
(through an LRU cache in front of `device_read`/`fs_read`); the
embedding models the image as a map `disk : block id → index → u64`
over the 512 entries of each block. -/

/-- `read_info_for_page` from source/loader/mezzano.c: extract the four
9-bit indices of `virtual` (bits 47:39, 38:30, 29:21, 20:12), walk the
block map from root `bml4`, returning 0 at levels 4, 3, 2 whenever the
indexed entry lacks `BLOCK_MAP_PRESENT`, descending to block
`entry >> BLOCK_MAP_ID_SHIFT` otherwise, and returning the full 64-bit
level-1 entry unconditionally. -/
def read_info_for_page (disk : Nat → Nat → Nat) (bml4 : Nat) (virtual : Nat) : Nat :=
  let bml4i := virtual / 2 ^ 39 % 512
  let bml3i := virtual / 2 ^ 30 % 512
  let bml2i := virtual / 2 ^ 21 % 512
  let bml1i := virtual / 2 ^ 12 % 512
  let e4 := disk bml4 bml4i
  if e4 / BLOCK_MAP_PRESENT % 2 = 0 then 0
  else
    let e3 := disk (e4 / 2 ^ BLOCK_MAP_ID_SHIFT) bml3i
    if e3 / BLOCK_MAP_PRESENT % 2 = 0 then 0
    else
      let e2 := disk (e3 / 2 ^ BLOCK_MAP_ID_SHIFT) bml2i
      if e2 / BLOCK_MAP_PRESENT % 2 = 0 then 0
      else disk (e2 / 2 ^ BLOCK_MAP_ID_SHIFT) bml1i

/-- The synthetic block map of the claim: blocks 1, 2, 3, 4 form the
only present path, for virtual address `0xDEADBEEF0000`, ending in a
level-1 entry with data block 42; every other entry is zero. -/
def synthDisk : Nat → Nat → Nat := fun block i =>
  if block = 1 ∧ i = 0xDEADBEEF0000 / 2 ^ 39 % 512 then 2 * 2 ^ 8 + 1
  else if block = 2 ∧ i = 0xDEADBEEF0000 / 2 ^ 30 % 512 then 3 * 2 ^ 8 + 1
  else if block = 3 ∧ i = 0xDEADBEEF0000 / 2 ^ 21 % 512 then 4 * 2 ^ 8 + 1
  else if block = 4 ∧ i = 0xDEADBEEF0000 / 2 ^ 12 % 512 then 42 * 2 ^ 8 + 1
  else 0

/-! ## arm64 MMU (arch/arm64/mmu.c)

The paging-structure words live in frames handed out by the platform
allocator and are read through `phys_to_virt`, which is the identity in
the loader; the embedding keeps them in `tableMem`, a map from byte
address to the 64-bit word stored there (entries are read and written
at 8-byte offsets).  The data bytes that `mmu_memset`/`mmu_memcpy_to`
write through a context live in the target frames, disjoint from the
paging structures, and are kept in `physMem`; the loader-side buffers
of the copies are `loaderMem`.  `allocate_structure` is the
`memory_alloc(PAGE_SIZE, ...)` call, modelled as a bump allocator
returning zeroed fresh frames. -/

def ARM64_TTE_PRESENT : Nat := 1
def ARM64_TTE_TABLE : Nat := 2
def ARM64_TTE_PAGE : Nat := 2
def ARM64_TTE_AF : Nat := 1 <<< 10
def ARM64_TTE_AP_P_RW_U_NA : Nat := 0
def ARM64_TTE_SH_INNER_SHAREABLE : Nat := 3 <<< 8
def ARM64_TTL1_RANGE : Nat := 0x8000000000
def ARM64_TTL2_RANGE : Nat := 0x40000000
def ARM64_TTL3_RANGE : Nat := 0x200000

/-- Modelled from the spec: `LARGE_PAGE_SIZE` comes from the arch
`page.h` header, which is not under `src/`; §4.2 of the spec fixes it:
"Uses 2-MiB pages where `virt % 2 MiB == phys % 2 MiB`". -/
def LARGE_PAGE_SIZE : Nat := 0x200000

/-- `e & ARM64_TTE_ADDR_MASK` (`0x00007ffffffff000`): bits 46:12. -/
def tte_addr (e : Nat) : Nat := e % 2 ^ 47 - e % 2 ^ 12

structure mmu_context where
  ttbr0 : Nat
  ttbr1 : Nat
deriving DecidableEq

structure MmuState where
  tableMem : Nat → Nat
  physMem : Nat → Nat
  loaderMem : Nat → Nat
  nextAlloc : Nat

/-- `allocate_structure`: one fresh zeroed page-table frame. -/
def allocate_structure (m : MmuState) : Nat × MmuState :=
  (m.nextAlloc,
   { m with
     nextAlloc := m.nextAlloc + PAGE_SIZE
     tableMem := fun a =>
       if m.nextAlloc ≤ a ∧ a < m.nextAlloc + PAGE_SIZE then 0 else m.tableMem a })

def write64 (m : MmuState) (a v : Nat) : MmuState :=
  { m with tableMem := updf m.tableMem a v }

/-- `get_ttl2` from arch/arm64/mmu.c: select `ttbr1` for high-half
addresses (bit 63), walk TTL0 and TTL1, allocating missing tables
(tagged `PRESENT | TABLE`; frames are page-aligned, so the bitwise-or
is addition) when `alloc`, and return the TTL2 table address. -/
def get_ttl2 (m : MmuState) (ctx : mmu_context) (virt : Nat) (alloc : Bool) :
    Option Nat × MmuState :=
  let ttl0 := if virt / 2 ^ 63 % 2 = 1 then ctx.ttbr1 else ctx.ttbr0
  let ttl0e := virt / ARM64_TTL1_RANGE % 512
  if m.tableMem (ttl0 + 8 * ttl0e) % 2 = 0 ∧ ¬ alloc then (none, m)
  else
    let em :=
      if m.tableMem (ttl0 + 8 * ttl0e) % 2 = 0 then
        let am := allocate_structure m
        (am.1 + ARM64_TTE_PRESENT + ARM64_TTE_TABLE,
         write64 am.2 (ttl0 + 8 * ttl0e) (am.1 + ARM64_TTE_PRESENT + ARM64_TTE_TABLE))
      else (m.tableMem (ttl0 + 8 * ttl0e), m)
    let ttl1 := tte_addr em.1
    let m1 := em.2
    let ttl1e := virt % ARM64_TTL1_RANGE / ARM64_TTL2_RANGE
    if m1.tableMem (ttl1 + 8 * ttl1e) % 2 = 0 ∧ ¬ alloc then (none, m1)
    else
      let em1 :=
        if m1.tableMem (ttl1 + 8 * ttl1e) % 2 = 0 then
          let am := allocate_structure m1
          (am.1 + ARM64_TTE_PRESENT + ARM64_TTE_TABLE,
           write64 am.2 (ttl1 + 8 * ttl1e) (am.1 + ARM64_TTE_PRESENT + ARM64_TTE_TABLE))
        else (m1.tableMem (ttl1 + 8 * ttl1e), m1)
      (some (tte_addr em1.1), em1.2)

/-- `map_large` from arch/arm64/mmu.c: write a 2 MiB block entry
(`phys | PRESENT | AF | SH_INNER | AP_P_RW_U_NA`; `phys` is
2-MiB-aligned at the call sites, so the bitwise-or is addition). -/
def map_large (m : MmuState) (ctx : mmu_context) (virt phys : Nat) : MmuState :=
  match get_ttl2 m ctx virt true with
  | (some ttl2, m1) =>
    let pde := virt % ARM64_TTL2_RANGE / LARGE_PAGE_SIZE
    write64 m1 (ttl2 + 8 * pde)
      (phys + ARM64_TTE_PRESENT + ARM64_TTE_AF + ARM64_TTE_SH_INNER_SHAREABLE +
        ARM64_TTE_AP_P_RW_U_NA)
  | (none, m1) => m1

/-- `map_small` from arch/arm64/mmu.c: allocate the TTL3 table if
missing, then write a 4 KiB page entry. -/
def map_small (m : MmuState) (ctx : mmu_context) (virt phys : Nat) : MmuState :=
  match get_ttl2 m ctx virt true with
  | (some ttl2, m1) =>
    let pde := virt % ARM64_TTL2_RANGE / ARM64_TTL3_RANGE
    let em :=
      if m1.tableMem (ttl2 + 8 * pde) % 2 = 0 then
        let am := allocate_structure m1
        (am.1 + ARM64_TTE_PRESENT + ARM64_TTE_TABLE,
         write64 am.2 (ttl2 + 8 * pde) (am.1 + ARM64_TTE_PRESENT + ARM64_TTE_TABLE))
      else (m1.tableMem (ttl2 + 8 * pde), m1)
    let ttl3 := tte_addr em.1
    let pte := virt % ARM64_TTL3_RANGE / PAGE_SIZE
    write64 em.2 (ttl3 + 8 * pte)
      (phys + ARM64_TTE_PRESENT + ARM64_TTE_PAGE + ARM64_TTE_AF +
        ARM64_TTE_SH_INNER_SHAREABLE + ARM64_TTE_AP_P_RW_U_NA)
  | (none, m1) => m1

/-- `is_canonical_addr` from arm64/mmu.h:
`((uint64_t)((int64_t)addr >> 48) + 1) <= 1` — the upper 16 bits must
sign-extend bit 48's run: bits 63:48 all zero or all one. -/
def is_canonical_addr (addr : Nat) : Bool :=
  decide ((toUInt64n (toInt64 addr / 2 ^ 48) + 1) % 2 ^ 64 ≤ 1)

/-- `is_canonical_range` from arm64/mmu.h: both ends canonical and the
same bit 48 (`end = start + size - 1` with 64-bit wraparound). -/
def is_canonical_range (start size : Nat) : Bool :=
  is_canonical_addr start &&
    is_canonical_addr ((start + size + (2 ^ 64 - 1)) % 2 ^ 64) &&
    decide (start / 2 ^ 48 % 2 = (start + size + (2 ^ 64 - 1)) % 2 ^ 64 / 2 ^ 48 % 2)

/-- The head loop of `mmu_map`: small pages up to a 2 MiB boundary.
Fuel exhaustion coincides with `size = 0` when called with
`fuel ≥ size`. -/
def mmu_map_head (ctx : mmu_context) :
    Nat → MmuState → Nat → Nat → Nat → MmuState × Nat × Nat × Nat
  | 0, m, virt, phys, size => (m, virt, phys, size)
  | fuel + 1, m, virt, phys, size =>
    if virt % LARGE_PAGE_SIZE ≠ 0 ∧ size ≠ 0 then
      mmu_map_head ctx fuel (map_small m ctx virt phys) ((virt + PAGE_SIZE) % 2 ^ 64)
        ((phys + PAGE_SIZE) % 2 ^ 64) (size - PAGE_SIZE)
    else (m, virt, phys, size)

/-- The middle loop of `mmu_map`: whole 2 MiB pages. -/
def mmu_map_large_loop (ctx : mmu_context) :
    Nat → MmuState → Nat → Nat → Nat → MmuState × Nat × Nat × Nat
  | 0, m, virt, phys, size => (m, virt, phys, size)
  | fuel + 1, m, virt, phys, size =>
    if size / LARGE_PAGE_SIZE ≠ 0 then
      mmu_map_large_loop ctx fuel (map_large m ctx virt phys) ((virt + LARGE_PAGE_SIZE) % 2 ^ 64)
        ((phys + LARGE_PAGE_SIZE) % 2 ^ 64) (size - LARGE_PAGE_SIZE)
    else (m, virt, phys, size)

/-- The tail loop of `mmu_map`: whatever remains, as small pages. -/
def mmu_map_tail (ctx : mmu_context) :
    Nat → MmuState → Nat → Nat → Nat → MmuState × Nat × Nat × Nat
  | 0, m, virt, phys, size => (m, virt, phys, size)
  | fuel + 1, m, virt, phys, size =>
    if size ≠ 0 then
      mmu_map_tail ctx fuel (map_small m ctx virt phys) ((virt + PAGE_SIZE) % 2 ^ 64)
        ((phys + PAGE_SIZE) % 2 ^ 64) (size - PAGE_SIZE)
    else (m, virt, phys, size)

/-- `mmu_map` from arch/arm64/mmu.c: fail (with no state change) on a
non-canonical range, otherwise map with 2 MiB pages where the virtual
and physical offsets agree modulo 2 MiB and 4 KiB pages elsewhere,
and return true. -/
def mmu_map (m : MmuState) (ctx : mmu_context) (virt phys size : Nat) :
    Bool × MmuState :=
  if is_canonical_range virt size = false then (false, m)
  else
    let r2 :=
      if virt % LARGE_PAGE_SIZE = phys % LARGE_PAGE_SIZE then
        let r1 := mmu_map_head ctx size m virt phys size
        mmu_map_large_loop ctx r1.2.2.2 r1.1 r1.2.1 r1.2.2.1 r1.2.2.2
      else (m, virt, phys, size)
    (true, (mmu_map_tail ctx r2.2.2.2 r2.1 r2.2.1 r2.2.2.1 r2.2.2.2).1)

def MMU_MEM_SET : Nat := 0
def MMU_MEM_COPY_TO : Nat := 1
def MMU_MEM_COPY_FROM : Nat := 2

/-- `do_mem_op` from arch/arm64/mmu.c: memset the physical bytes to
`(uint8_t)value`, copy loader bytes at `value` into them, or copy them
out to `value`; for the copies the cursor advances by `page_size`. -/
def do_mem_op (m : MmuState) (page page_size op value : Nat) : MmuState × Nat :=
  if op = MMU_MEM_SET then
    ({ m with physMem := fun x =>
        if page ≤ x ∧ x < page + page_size then value % 256 else m.physMem x },
     value)
  else if op = MMU_MEM_COPY_TO then
    ({ m with physMem := fun x =>
        if page ≤ x ∧ x < page + page_size then m.loaderMem (value + (x - page))
        else m.physMem x },
     value + page_size)
  else
    ({ m with loaderMem := fun x =>
        if value ≤ x ∧ x < value + page_size then m.physMem (page + (x - value))
        else m.loaderMem x },
     value + page_size)

/-- The page-walking loop of `mmu_mem_op`, with the cached TTL2/TTL3
pointers as arguments (`NULL` is `none`); the cached page directory is
refetched at 1 GiB boundaries and the cached page table at 2 MiB
boundaries, a 2 MiB block entry yields the span to the next boundary,
and a missing entry at any level aborts with false, leaving the bytes
already transferred in place.  Fuel exhaustion coincides with
`size = 0` when called with `fuel ≥ size`. -/
def mmu_mem_op_loop (ctx : mmu_context) (op : Nat) :
    Nat → MmuState → Nat → Nat → Nat → Option Nat → Option Nat → Bool × MmuState
  | 0, m, _, _, _, _, _ => (true, m)
  | fuel + 1, m, addr, size, value, ttl2c, ttl3c =>
    if size = 0 then (true, m)
    else
      match (if ttl2c = none ∨ addr % ARM64_TTL2_RANGE = 0 then
              (get_ttl2 m ctx addr false).1 else ttl2c) with
      | none => (false, m)
      | some ttl2 =>
        if ttl3c = none ∨ addr % ARM64_TTL3_RANGE = 0 then
          let pde := addr % ARM64_TTL2_RANGE / ARM64_TTL3_RANGE
          let e := m.tableMem (ttl2 + 8 * pde)
          if e % 2 = 0 then (false, m)
          else if e / ARM64_TTE_TABLE % 2 = 1 then
            let ttl3 := tte_addr e
            let pte := addr % ARM64_TTL3_RANGE / PAGE_SIZE
            let e3 := m.tableMem (ttl3 + 8 * pte)
            if e3 % 2 = 0 then (false, m)
            else
              let page := tte_addr e3 + addr % PAGE_SIZE
              let page_size := min (PAGE_SIZE - addr % PAGE_SIZE) size
              mmu_mem_op_loop ctx op fuel (do_mem_op m page page_size op value).1
                ((addr + page_size) % 2 ^ 64) (size - page_size)
                (do_mem_op m page page_size op value).2 (some ttl2) (some ttl3)
          else
            let page := tte_addr e + addr % LARGE_PAGE_SIZE
            let page_size := min (LARGE_PAGE_SIZE - addr % LARGE_PAGE_SIZE) size
            mmu_mem_op_loop ctx op fuel (do_mem_op m page page_size op value).1
              ((addr + page_size) % 2 ^ 64) (size - page_size)
              (do_mem_op m page page_size op value).2 (some ttl2) none
        else
          match ttl3c with
          | some ttl3 =>
            let pte := addr % ARM64_TTL3_RANGE / PAGE_SIZE
            let e3 := m.tableMem (ttl3 + 8 * pte)
            if e3 % 2 = 0 then (false, m)
            else
              let page := tte_addr e3 + addr % PAGE_SIZE
              let page_size := min (PAGE_SIZE - addr % PAGE_SIZE) size
              mmu_mem_op_loop ctx op fuel (do_mem_op m page page_size op value).1
                ((addr + page_size) % 2 ^ 64) (size - page_size)
                (do_mem_op m page page_size op value).2 (some ttl2) (some ttl3)
          | none => (false, m)

/-- `mmu_mem_op` from arch/arm64/mmu.c. -/
def mmu_mem_op (m : MmuState) (ctx : mmu_context) (addr size op value : Nat) :
    Bool × MmuState :=
  if is_canonical_range addr size = false then (false, m)
  else mmu_mem_op_loop ctx op size m addr size value none none

/-- `mmu_memset` from arch/arm64/mmu.c. -/
def mmu_memset (m : MmuState) (ctx : mmu_context) (addr value size : Nat) :
    Bool × MmuState :=
  mmu_mem_op m ctx addr size MMU_MEM_SET value

/-- `mmu_memcpy_to` from arch/arm64/mmu.c. -/
def mmu_memcpy_to (m : MmuState) (ctx : mmu_context) (dest src size : Nat) :
    Bool × MmuState :=
  mmu_mem_op m ctx dest size MMU_MEM_COPY_TO src

/-- `mmu_memcpy_from` from arch/arm64/mmu.c. -/
def mmu_memcpy_from (m : MmuState) (ctx : mmu_context) (dest src size : Nat) :
    Bool × MmuState :=
  mmu_mem_op m ctx src size MMU_MEM_COPY_FROM dest

/-! ## Pure views of the table walk, and the claim's canonicality -/

/-- The pure content of a no-allocation TTL2 walk, phrased over the
table memory alone (used to reason about the cached walk). -/
def lookup_ttl2 (tbl : Nat → Nat) (ctx : mmu_context) (virt : Nat) : Option Nat :=
  let ttl0 := if virt / 2 ^ 63 % 2 = 1 then ctx.ttbr1 else ctx.ttbr0
  let ttl0e := virt / ARM64_TTL1_RANGE % 512
  if tbl (ttl0 + 8 * ttl0e) % 2 = 0 then none
  else
    let ttl1 := tte_addr (tbl (ttl0 + 8 * ttl0e))
    let ttl1e := virt % ARM64_TTL1_RANGE / ARM64_TTL2_RANGE
    if tbl (ttl1 + 8 * ttl1e) % 2 = 0 then none
    else some (tte_addr (tbl (ttl1 + 8 * ttl1e)))

/-- The TTL2 lookup without allocation (`get_ttl2(ctx, addr, false)`
never changes state). -/
def get_ttl2_pure (m : MmuState) (ctx : mmu_context) (virt : Nat) : Option Nat :=
  (get_ttl2 m ctx virt false).1

/-- The page table covering `addr`, when its directory entry is a
present table entry. -/
def ttl3_of (m : MmuState) (ctx : mmu_context) (addr : Nat) : Option Nat :=
  match get_ttl2_pure m ctx addr with
  | none => none
  | some ttl2 =>
    let e := m.tableMem (ttl2 + 8 * (addr % ARM64_TTL2_RANGE / ARM64_TTL3_RANGE))
    if e % 2 = 1 ∧ e / ARM64_TTE_TABLE % 2 = 1 then some (tte_addr e) else none

/-- Whether `addr` is mapped through a present 4 KiB page entry. -/
def small_mapped (m : MmuState) (ctx : mmu_context) (addr : Nat) : Bool :=
  match ttl3_of m ctx addr with
  | some ttl3 =>
    decide (m.tableMem (ttl3 + 8 * (addr % ARM64_TTL3_RANGE / PAGE_SIZE)) % 2 = 1)
  | none => false

/-- The physical byte behind virtual `addr` in the context, when
mapped (through either a 4 KiB page or a 2 MiB block). -/
def resolve_page (m : MmuState) (ctx : mmu_context) (addr : Nat) : Option Nat :=
  match get_ttl2_pure m ctx addr with
  | none => none
  | some ttl2 =>
    let e := m.tableMem (ttl2 + 8 * (addr % ARM64_TTL2_RANGE / ARM64_TTL3_RANGE))
    if e % 2 = 0 then none
    else if e / ARM64_TTE_TABLE % 2 = 1 then
      let e3 := m.tableMem (tte_addr e + 8 * (addr % ARM64_TTL3_RANGE / PAGE_SIZE))
      if e3 % 2 = 0 then none else some (tte_addr e3 + addr % PAGE_SIZE)
    else some (tte_addr e + addr % LARGE_PAGE_SIZE)

/-- The canonicality predicate as the claim words it: each end of the
range sign-extends from bit 47 (bits 63:47 all equal) and both ends
lie in the same half of the address space. -/
def claim_canonical_range (start size : Nat) : Prop :=
  (start % 2 ^ 64 / 2 ^ 47 = 0 ∨ start % 2 ^ 64 / 2 ^ 47 = 2 ^ 17 - 1) ∧
  ((start + size - 1) % 2 ^ 64 / 2 ^ 47 = 0 ∨
    (start + size - 1) % 2 ^ 64 / 2 ^ 47 = 2 ^ 17 - 1) ∧
  start % 2 ^ 64 / 2 ^ 63 = (start + size - 1) % 2 ^ 64 / 2 ^ 63

instance (start size : Nat) : Decidable (claim_canonical_range start size) := by
  unfold claim_canonical_range; infer_instance

/-- A fresh MMU state: all memory zero, allocator at `0x10000`. -/
def mmuInit : MmuState where
  tableMem := fun _ => 0
  physMem := fun _ => 0
  loaderMem := fun _ => 0
  nextAlloc := 0x10000

/-- A context as `mmu_context_create` builds it: two zeroed roots. -/
def mmuCtx0 : mmu_context := ⟨0, 4096⟩

/-- A context with one 4 KiB page mapped: virtual `[0, 0x1000)` maps to
physical `0x100000`; virtual `[0x1000, 0x2000)` is unmapped.  Roots at
`0x1000`/`0x2000`, TTL1 at `0x3000`, TTL2 at `0x4000`, TTL3 at
`0x5000`. -/
def memOpCtx : mmu_context := ⟨0x1000, 0x2000⟩

def memOpState : MmuState where
  tableMem := fun a =>
    if a = 0x1000 then 0x3003
    else if a = 0x3000 then 0x4003
    else if a = 0x4000 then 0x5003
    else if a = 0x5000 then 0x100000 + 1795
    else 0
  physMem := fun _ => 0
  loaderMem := fun a => a % 256
  nextAlloc := 0x10000

end Mezzano

open Mezzano

/-! ## Theorems -/

/-- C6: for every integer `v` with `-2^62 ≤ v < 2^62`,
`unfixnum (fixnum v) = v`: the fixnum codec round-trips, with
`fixnum v = (uint64_t)v << 1` and `unfixnum` an arithmetic shift. -/
theorem fixnum_roundtrip (v : Int) (hlo : -2 ^ 62 ≤ v) (hhi : v < 2 ^ 62) :
    unfixnum (fixnum v) = v := by
  unfold unfixnum fixnum toUInt64n toInt64
  rcases le_or_lt 0 v with hv | hv
  · have h1 : (2 * v) % (2 ^ 64 : Int) = 2 * v := by omega
    rw [h1]
    have h3 : (((2 * v).toNat : Nat) % 2 ^ 64 : Nat) = (2 * v).toNat := by omega
    rw [h3]
    have h4 : ((2 * v).toNat : Nat) < 2 ^ 63 := by omega
    simp only [if_pos h4]
    omega
  · have h1 : (2 * v) % (2 ^ 64 : Int) = 2 * v + 2 ^ 64 := by omega
    rw [h1]
    have h3 : (((2 * v + 2 ^ 64).toNat : Nat) % 2 ^ 64 : Nat) = (2 * v + 2 ^ 64).toNat := by
      omega
    rw [h3]
    have h4 : ¬ (((2 * v + 2 ^ 64).toNat : Nat) < 2 ^ 63) := by omega
    simp only [if_neg h4]
    omega

/-- Witness for C6 at `v = -5`. -/
theorem fixnum_roundtrip_witness :
    -2 ^ 62 ≤ (-5 : Int) ∧ (-5 : Int) < 2 ^ 62 ∧ unfixnum (fixnum (-5)) = -5 :=
  ⟨by decide, by decide, fixnum_roundtrip (-5) (by decide) (by decide)⟩

/-- C7: from the empty map, inserting `(10, 20)` then `(20, 30)` yields
the single entry `(10, 30)`, and inserting `(10, 20)` then `(15, 25)`
yields the single entry `(10, 25)`: touching and overlapping inserts
are merged in place. -/
theorem memory_map_merging :
    ((insertSeq [(10, 20), (20, 30)]).n_memory_map_entries = 1 ∧
      (insertSeq [(10, 20), (20, 30)]).memory_map 0 = ⟨10, 30⟩) ∧
    ((insertSeq [(10, 20), (15, 25)]).n_memory_map_entries = 1 ∧
      (insertSeq [(10, 20), (15, 25)]).memory_map 0 = ⟨10, 25⟩) := by
  decide

/-- C1 (code bug): inserting `(10,20)`, `(30,40)`, `(15,35)` from the
empty map leaves the two entries `(10,35)` and `(30,40)`: the in-place
merge extended the first entry over its successor, and the no-op
`crunch_memory_map` never coalesced them, so the map violates
`memory_map[i].end < memory_map[j].start` for `i < j`. -/
theorem memory_map_sortedness_violated :
    (insertSeq [(10, 20), (30, 40), (15, 35)]).n_memory_map_entries = 2 ∧
    (insertSeq [(10, 20), (30, 40), (15, 35)]).memory_map 0 = ⟨10, 35⟩ ∧
    (insertSeq [(10, 20), (30, 40), (15, 35)]).memory_map 1 = ⟨30, 40⟩ ∧
    ¬ ((insertSeq [(10, 20), (30, 40), (15, 35)]).memory_map 0).end_ <
        ((insertSeq [(10, 20), (30, 40), (15, 35)]).memory_map 1).start := by
  decide

/-- C5 counterexample: after inserting `(10, 20)` into the empty map the
map holds exactly one entry, yet the stored `n_memory_map_entries` is
`1`, not `fixnum 1 = 2`: the field is not fixnum-encoded. -/
theorem n_memory_map_entries_not_fixnum :
    (mezzano_insert_into_memory_map emptyBootInfo 10 20).n_memory_map_entries = 1 ∧
    (mezzano_insert_into_memory_map emptyBootInfo 10 20).memory_map 0 = ⟨10, 20⟩ ∧
    (mezzano_insert_into_memory_map emptyBootInfo 10 20).n_memory_map_entries ≠ fixnum 1 := by
  decide

/-- C5 (amended): `n_memory_map_entries` holds the raw entry count, not
a fixnum: every insert grows it by at most one (never by `fixnum 1 = 2`),
and inserting any region into the empty map leaves it exactly `1`. -/
theorem n_memory_map_entries_raw_count :
    (∀ b start end_, (mezzano_insert_into_memory_map b start end_).n_memory_map_entries = b.n_memory_map_entries ∨
      (mezzano_insert_into_memory_map b start end_).n_memory_map_entries = b.n_memory_map_entries + 1) ∧
    (∀ start end_,
      (mezzano_insert_into_memory_map emptyBootInfo start end_).n_memory_map_entries = 1 ∧
      fixnum 1 = 2) := by
  constructor
  · intro b start end_
    unfold mezzano_insert_into_memory_map
    suffices h : ∀ fuel i, (mezzano_insert_loop b start end_ i fuel).n_memory_map_entries = b.n_memory_map_entries ∨
        (mezzano_insert_loop b start end_ i fuel).n_memory_map_entries = b.n_memory_map_entries + 1 by
      exact h b.n_memory_map_entries 0
    intro fuel
    induction fuel with
    | zero =>
      intro i
      simp only [mezzano_insert_loop, mezzano_insert_new_entry, crunch_memory_map]
      split
      · left; rfl
      · right; rfl
    | succ n ih =>
      intro i
      simp only [mezzano_insert_loop]
      split
      · simp only [mezzano_insert_new_entry, crunch_memory_map]
        split
        · left; rfl
        · right; rfl
      · split
        · left; rfl
        · exact ih (i + 1)
  · intro start end_
    exact ⟨rfl, rfl⟩

/-- C3 counterexample: a header with valid magic, `protocol_major = 1`
and `protocol_minor = 27` (supported minor plus one) is rejected by
`config_cmd_mezzano`, not accepted: the command fails on
`protocol_major != mezzano_protocol_major` before the minor is ever
compared. -/
theorem protocol_gate_major_one_rejected :
    config_cmd_mezzano_validate_header ⟨mezzano_magic, 1, 27⟩ = false := by
  decide

/-- C3 (amended): with valid magic, a header with `protocol_major = 0`
is rejected exactly when its minor differs from the supported minor 26
(so minor 27 is rejected), and any header with `protocol_major ≠ 0` —
in particular major 1 — is rejected as an unsupported major. -/
theorem protocol_gate :
    (∀ minor, config_cmd_mezzano_validate_header ⟨mezzano_magic, 0, minor⟩ = false ↔
      minor ≠ 26) ∧
    (∀ major minor, major ≠ 0 →
      config_cmd_mezzano_validate_header ⟨mezzano_magic, major, minor⟩ = false) := by
  constructor
  · intro minor
    simp [config_cmd_mezzano_validate_header, mezzano_protocol_major,
      mezzano_protocol_minor]
  · intro major minor hmaj
    simp [config_cmd_mezzano_validate_header, mezzano_protocol_major, hmaj]

/-- Witness for C3 (amended) at `major = 2`, `minor = 3`. -/
theorem protocol_gate_witness :
    (2 : Nat) ≠ 0 ∧
    config_cmd_mezzano_validate_header ⟨mezzano_magic, 2, 3⟩ = false :=
  ⟨by decide, protocol_gate.2 2 3 (by decide)⟩

/-- The coalescing loop written from the claim's description computes
exactly what the source loop computes. -/
theorem buddy_free_loop_described_eq (use32 : Bool) (m nil : Nat) :
    ∀ fuel s k l, buddy_free_loop_described use32 m nil fuel s k l =
      buddy_free_loop use32 m nil fuel s k l := by
  intro fuel
  induction fuel with
  | zero => intro s k l; rfl
  | succ n ih =>
    intro s k l
    simp only [buddy_free_loop_described, buddy_free_loop]
    by_cases h2 : k = m ∨ page_exists s.boot_info (buddy k l) = false ∨
        page_info_type s (buddy k l) ≠ page_type_free ∨
        (page_info_type s (buddy k l) = page_type_free ∧
          page_info_bin s (buddy k l) ≠ k)
    · have h1 : k = m ∨ page_exists s.boot_info (buddy k l) = false ∨
          page_info_type s (buddy k l) ≠ page_type_free ∨
          page_info_bin s (buddy k l) ≠ k := by tauto
      rw [if_pos h1, if_pos h2]
    · have h1 : ¬ (k = m ∨ page_exists s.boot_info (buddy k l) = false ∨
          page_info_type s (buddy k l) ≠ page_type_free ∨
          page_info_bin s (buddy k l) ≠ k) := by tauto
      rw [if_neg h1, if_neg h2]
      have hl : min l (buddy k l) = if buddy k l < l then buddy k l else l := by
        split <;> omega
      simp only [hl]
      exact ih _ _ _

/-- C2: `buddy_free_page` behaves exactly as described — bin32 with
maximum index 19 below 4 GiB and bin64 with maximum index 26 otherwise,
the stop/unlink/min/increment loop from order 0, and the head insertion
on exit — and consequently releasing the two order-0 buddies
`0x200000` and `0x201000` into an empty allocator leaves exactly one
free entry, in bin 1, with the merged page `0x200000` typed free in
bin 1. -/
theorem buddy_free_page_described_correct :
    (∀ s nil l, buddy_free_page_described s nil l = buddy_free_page s nil l) ∧
    ((buddy_free_page (buddy_free_page buddyInit 1 0x200000) 1 0x201000).boot_info.buddy_bin_32 1 =
        ⟨fixnum 512, fixnum 1⟩ ∧
      (∀ j : Fin 20, (j : Nat) ≠ 1 →
        (buddy_free_page (buddy_free_page buddyInit 1 0x200000) 1 0x201000).boot_info.buddy_bin_32 j =
          ⟨1, fixnum 0⟩) ∧
      (∀ j : Fin 27,
        (buddy_free_page (buddy_free_page buddyInit 1 0x200000) 1 0x201000).boot_info.buddy_bin_64 j =
          ⟨1, fixnum 0⟩) ∧
      page_info_type (buddy_free_page (buddy_free_page buddyInit 1 0x200000) 1 0x201000) 0x200000 =
        page_type_free ∧
      page_info_bin (buddy_free_page (buddy_free_page buddyInit 1 0x200000) 1 0x201000) 0x200000 = 1) := by
  constructor
  · intro s nil l
    unfold buddy_free_page_described buddy_free_page
    simp only [show mezzano_n_buddy_bins_32_bit - 1 = 19 from rfl,
      show mezzano_n_buddy_bins_64_bit - 1 = 26 from rfl,
      buddy_free_loop_described_eq]
  · exact ⟨by decide, by decide, by decide, by decide, by decide⟩

/-- The `uint64_t` pattern of `unfixnum x`: an arithmetic right shift
keeps the sign bit and shifts the rest down. -/
theorem toUInt64n_unfixnum (x : Nat) :
    toUInt64n (unfixnum x) =
      x % 2 ^ 64 / 2 + (if x % 2 ^ 64 < 2 ^ 63 then 0 else 2 ^ 63) := by
  unfold unfixnum toInt64 toUInt64n
  by_cases h : x % 2 ^ 64 < 2 ^ 63
  · simp only [if_pos h]
    omega
  · simp only [if_neg h]
    omega

/-- `fixnum` of a reinterpreted `uint64_t` is a plain left shift mod `2^64`. -/
theorem fixnum_toInt64 (x : Nat) : fixnum (toInt64 x) = 2 * x % 2 ^ 64 := by
  unfold fixnum toInt64 toUInt64n
  by_cases h : x % 2 ^ 64 < 2 ^ 63
  · simp only [if_pos h]
    omega
  · simp only [if_neg h]
    omega

/-- Setting the page-info type of a page makes its type read back as the
value written, whatever the previous flags word held. -/
theorem page_info_type_after_set (s : BuddyState) (page value : Nat)
    (hv : value < 256) :
    page_info_type (set_page_info_type s page value) page = value := by
  unfold page_info_type set_page_info_type set_page_info_flags page_info_flags updf
  simp only [eq_self_iff_true, if_true]
  rw [fixnum_toInt64, toUInt64n_unfixnum]
  generalize toUInt64n (unfixnum (s.page_info (page / PAGE_SIZE)).flags) = A
  split <;> omega

set_option maxHeartbeats 2000000 in
/-- C4 counterexample: with the freestanding flag set, `load_page` on a
PRESENT, non-TRANSIENT entry whose WIRED flag is set (`info = 0x511`,
data block 5) types the allocated frame `wired`, not `active`:
`load_page` never consults the freestanding flag when choosing the
page-info type. -/
theorem load_page_freestanding_still_wired :
    loadInit.freestanding = true ∧
    hasFlag 0x511 BLOCK_MAP_PRESENT ∧
    ¬ hasFlag 0x511 BLOCK_MAP_TRANSIENT ∧
    hasFlag 0x511 BLOCK_MAP_WIRED ∧
    page_info_type (load_page loadInit 0x511 0x1000).buddy 0x300000 = page_type_wired ∧
    page_type_wired ≠ page_type_active := by
  exact ⟨rfl, by decide, by decide, by decide, by decide, by decide⟩

/-- Projection lemmas for the `load_page` steps. -/
theorem load_page_fill_buddy (st : LoadState) (info b : Nat) :
    (load_page_fill st info b).buddy = st.buddy := by
  unfold load_page_fill; split <;> rfl

theorem load_page_record_map_buddy (st : LoadState) (info v p : Nat) :
    (load_page_record_map st info v p).buddy = st.buddy := rfl

theorem load_page_consume_buddy (st : LoadState) :
    (load_page_consume st).buddy = st.buddy := rfl

theorem load_page_refill_buddy (st : LoadState) :
    (load_page_refill st).buddy = st.buddy := by
  unfold load_page_refill; split <;> rfl

theorem load_page_refill_phys (st : LoadState) :
    (load_page_refill st).chunk.phys_addr = load_page_frame st := by
  unfold load_page_refill load_page_frame; split <;> rfl

theorem load_page_set_info_buddy (st : LoadState) (info p : Nat) :
    (load_page_set_info st info p).buddy =
      set_page_info_type
        (set_page_info_extra st.buddy p (fixnum (toInt64 (info / 2 ^ BLOCK_MAP_ID_SHIFT)))) p
        (if info / BLOCK_MAP_WIRED % 2 = 1 then page_type_wired else page_type_active) := by
  unfold load_page_set_info
  by_cases h : info / BLOCK_MAP_WIRED % 2 = 1
  · rw [if_pos h, if_pos h]
  · rw [if_neg h, if_neg h]

/-- C4 (amended): for every PRESENT, non-TRANSIENT level-1 entry that is
loaded, `load_page` types the allocated frame from the entry's WIRED
flag alone — `wired` when WIRED is set, `active` otherwise — regardless
of the freestanding flag (which only selects which entries are loaded). -/
theorem load_page_type_from_wired_bit (st : LoadState) (info virtual : Nat)
    (hp : info / BLOCK_MAP_PRESENT % 2 = 1)
    (ht : ¬ info / BLOCK_MAP_TRANSIENT % 2 = 1) :
    page_info_type (load_page st info virtual).buddy (load_page_frame st) =
      if info / BLOCK_MAP_WIRED % 2 = 1 then page_type_wired else page_type_active := by
  have hcond : ¬ (info / BLOCK_MAP_PRESENT % 2 = 0 ∨ info / BLOCK_MAP_TRANSIENT % 2 = 1) := by
    omega
  unfold load_page
  rw [if_neg hcond]
  dsimp only
  rw [load_page_fill_buddy, load_page_set_info_buddy, load_page_record_map_buddy,
    load_page_consume_buddy, load_page_refill_buddy, load_page_refill_phys]
  exact page_info_type_after_set _ _ _ (by split <;> decide)

/-- Witness for C4 (amended): a PRESENT, non-WIRED entry loaded in the
freestanding state gets type `active`. -/
theorem load_page_type_from_wired_bit_witness :
    page_info_type (load_page loadInit 0x501 0x1000).buddy (load_page_frame loadInit) =
      if (0x501 : Nat) / BLOCK_MAP_WIRED % 2 = 1 then page_type_wired else page_type_active :=
  load_page_type_from_wired_bit loadInit 0x501 0x1000 (by decide) (by decide)

/-- C8: over the synthetic block map in which only virtual address
`0xDEADBEEF0000` is PRESENT (data block 42), `read_info_for_page`
returns 0 for every 48-bit virtual address outside that page — the
walk stops with 0 at the first level whose indexed entry lacks the
PRESENT bit — and for every address inside that page it returns the
level-1 entry itself: PRESENT bit set and data-block id 42. -/
theorem read_info_for_page_resolution :
    (∀ virtual, virtual < 2 ^ 48 →
      virtual / 2 ^ 12 ≠ 0xDEADBEEF0000 / 2 ^ 12 →
      read_info_for_page synthDisk 1 virtual = 0) ∧
    (∀ virtual, virtual < 2 ^ 48 →
      virtual / 2 ^ 12 = 0xDEADBEEF0000 / 2 ^ 12 →
      read_info_for_page synthDisk 1 virtual / 2 ^ BLOCK_MAP_ID_SHIFT = 42 ∧
      read_info_for_page synthDisk 1 virtual / BLOCK_MAP_PRESENT % 2 = 1) := by
  constructor
  · intro v hv hne
    simp only [read_info_for_page, BLOCK_MAP_PRESENT, BLOCK_MAP_ID_SHIFT]
    by_cases h4 : v / 2 ^ 39 % 512 = 0xDEADBEEF0000 / 2 ^ 39 % 512
    · have h4n : v / 549755813888 % 512 = 445 := by omega
      by_cases h3 : v / 2 ^ 30 % 512 = 0xDEADBEEF0000 / 2 ^ 30 % 512
      · have h3n : v / 1073741824 % 512 = 182 := by omega
        by_cases h2 : v / 2 ^ 21 % 512 = 0xDEADBEEF0000 / 2 ^ 21 % 512
        · have h2n : v / 2097152 % 512 = 503 := by omega
          by_cases h1 : v / 2 ^ 12 % 512 = 0xDEADBEEF0000 / 2 ^ 12 % 512
          · exfalso
            apply hne
            omega
          · have h1n : ¬ v / 4096 % 512 = 240 := by omega
            norm_num [synthDisk, h4n, h3n, h2n, h1n]
        · have h2n : ¬ v / 2097152 % 512 = 503 := by omega
          norm_num [synthDisk, h4n, h3n, h2n]
      · have h3n : ¬ v / 1073741824 % 512 = 182 := by omega
        norm_num [synthDisk, h4n, h3n]
    · have h4n : ¬ v / 549755813888 % 512 = 445 := by omega
      norm_num [synthDisk, h4n]
  · intro v hv heq
    have h4n : v / 549755813888 % 512 = 445 := by omega
    have h3n : v / 1073741824 % 512 = 182 := by omega
    have h2n : v / 2097152 % 512 = 503 := by omega
    have h1n : v / 4096 % 512 = 240 := by omega
    simp only [read_info_for_page, BLOCK_MAP_PRESENT, BLOCK_MAP_ID_SHIFT]
    norm_num [synthDisk, h4n, h3n, h2n, h1n]

/-- Witness for C8 at `V = 0` (outside the mapped page) and
`V = 0xDEADBEEF0000` (the mapped page). -/
theorem read_info_for_page_resolution_witness :
    read_info_for_page synthDisk 1 0 = 0 ∧
    read_info_for_page synthDisk 1 0xDEADBEEF0000 / 2 ^ BLOCK_MAP_ID_SHIFT = 42 :=
  ⟨read_info_for_page_resolution.1 0 (by decide) (by decide),
   (read_info_for_page_resolution.2 0xDEADBEEF0000 (by norm_num) rfl).1⟩

/-- C9 counterexample: for `virt = 2^47` (bit 47 set, bits 63:48
clear), `size = 4096`, the range is *not* canonical in the claim's
bit-47 sense, yet `mmu_map` accepts it and returns true: the source's
`is_canonical_addr` sign-extends from bit 48, not bit 47. -/
theorem mmu_map_accepts_bit47_noncanonical :
    ¬ claim_canonical_range 0x800000000000 4096 ∧
    (mmu_map mmuInit mmuCtx0 0x800000000000 0 4096).1 = true := by
  exact ⟨by decide, by decide⟩

/-- C9 (amended): for every state, context and arguments, `mmu_map`
returns false exactly when the source's `is_canonical_range` rejects
the range — bits 63:48 of each end all equal (sign-extension from bit
48) and both ends agreeing on bit 48 — and when it returns false the
paging state is unchanged: the check precedes every table write. -/
theorem mmu_map_false_iff_noncanonical (m : MmuState) (ctx : mmu_context)
    (virt phys size : Nat) :
    ((mmu_map m ctx virt phys size).1 = false ↔ is_canonical_range virt size = false) ∧
    (is_canonical_range virt size = false → mmu_map m ctx virt phys size = (false, m)) := by
  unfold mmu_map
  by_cases h : is_canonical_range virt size = false
  · rw [if_pos h]
    exact ⟨⟨fun _ => h, fun _ => rfl⟩, fun _ => rfl⟩
  · rw [if_neg h]
    refine ⟨⟨fun hfalse => ?_, fun hc => absurd hc h⟩, fun hc => absurd hc h⟩
    exact absurd hfalse (by simp)

/-- A no-allocation `get_ttl2` walk neither changes state nor depends
on anything but the table memory. -/
theorem get_ttl2_pure_eq (m : MmuState) (ctx : mmu_context) (virt : Nat) :
    get_ttl2_pure m ctx virt = lookup_ttl2 m.tableMem ctx virt := by
  unfold get_ttl2_pure get_ttl2 lookup_ttl2
  simp only [Bool.false_eq_true, not_false_iff, and_true]
  by_cases h0 : m.tableMem
      ((if virt / 2 ^ 63 % 2 = 1 then ctx.ttbr1 else ctx.ttbr0) +
        8 * (virt / ARM64_TTL1_RANGE % 512)) % 2 = 0
  · simp only [if_pos h0]
  · simp only [if_neg h0]
    by_cases h1 : m.tableMem
        (tte_addr (m.tableMem
          ((if virt / 2 ^ 63 % 2 = 1 then ctx.ttbr1 else ctx.ttbr0) +
            8 * (virt / ARM64_TTL1_RANGE % 512))) +
          8 * (virt % ARM64_TTL1_RANGE / ARM64_TTL2_RANGE)) % 2 = 0
    · simp only [if_pos h1]
    · simp only [if_neg h1]

/-- The TTL2 walk reads indices determined by `virt / 2^30`: addresses
in the same 1 GiB region share their page directory. -/
theorem lookup_ttl2_congr (tbl : Nat → Nat) (ctx : mmu_context) {a b : Nat}
    (h : a / ARM64_TTL2_RANGE = b / ARM64_TTL2_RANGE) :
    lookup_ttl2 tbl ctx a = lookup_ttl2 tbl ctx b := by
  unfold lookup_ttl2
  unfold ARM64_TTL2_RANGE at h
  have e1 : a / 2 ^ 63 % 2 = b / 2 ^ 63 % 2 := by omega
  have e2 : a / ARM64_TTL1_RANGE % 512 = b / ARM64_TTL1_RANGE % 512 := by
    unfold ARM64_TTL1_RANGE; omega
  have e3 : a % ARM64_TTL1_RANGE / ARM64_TTL2_RANGE =
      b % ARM64_TTL1_RANGE / ARM64_TTL2_RANGE := by
    unfold ARM64_TTL1_RANGE ARM64_TTL2_RANGE; omega
  simp only [e1, e2, e3]

/-- `ttl3_of` depends only on `addr / 2^21`: addresses in the same
2 MiB region share their page table. -/
theorem ttl3_of_congr (m : MmuState) (ctx : mmu_context) {a b : Nat}
    (h : a / ARM64_TTL3_RANGE = b / ARM64_TTL3_RANGE) :
    ttl3_of m ctx a = ttl3_of m ctx b := by
  unfold ttl3_of
  unfold ARM64_TTL3_RANGE at h
  have h30 : a / ARM64_TTL2_RANGE = b / ARM64_TTL2_RANGE := by
    unfold ARM64_TTL2_RANGE; omega
  have hpde : a % ARM64_TTL2_RANGE / ARM64_TTL3_RANGE =
      b % ARM64_TTL2_RANGE / ARM64_TTL3_RANGE := by
    unfold ARM64_TTL2_RANGE ARM64_TTL3_RANGE; omega
  rw [get_ttl2_pure_eq, get_ttl2_pure_eq, lookup_ttl2_congr m.tableMem ctx h30]
  simp only [hpde]

/-- `do_mem_op` never touches the paging structures. -/
theorem do_mem_op_tableMem (m : MmuState) (page page_size op value : Nat) :
    (do_mem_op m page page_size op value).1.tableMem = m.tableMem := by
  unfold do_mem_op
  split
  · rfl
  · split
    · rfl
    · rfl

/-- For `MMU_MEM_SET` the cursor does not advance. -/
theorem do_mem_op_set_value (m : MmuState) (page page_size value : Nat) :
    (do_mem_op m page page_size MMU_MEM_SET value).2 = value := by
  unfold do_mem_op
  rw [if_pos rfl]

/-- The cached walk never modifies the paging structures. -/
theorem mmu_mem_op_loop_tableMem (ctx : mmu_context) (op : Nat) :
    ∀ fuel m addr size value t2c t3c,
      (mmu_mem_op_loop ctx op fuel m addr size value t2c t3c).2.tableMem = m.tableMem := by
  intro fuel
  induction fuel with
  | zero => intro m addr size value t2c t3c; rfl
  | succ f ih =>
    intro m addr size value t2c t3c
    rw [mmu_mem_op_loop]
    split
    · rfl
    · split
      · rfl
      · split
        · dsimp only
          split
          · rfl
          · split
            · split
              · rfl
              · rw [ih, do_mem_op_tableMem]
            · rw [ih, do_mem_op_tableMem]
        · split
          · dsimp only
            split
            · rfl
            · rw [ih, do_mem_op_tableMem]
          · rfl

/-- A memset step leaves each physical byte either untouched or set to
the written byte. -/
theorem do_mem_op_set_physMem (m : MmuState) (p q value x : Nat) :
    (do_mem_op m p q MMU_MEM_SET value).1.physMem x = m.physMem x ∨
    (do_mem_op m p q MMU_MEM_SET value).1.physMem x = value % 256 := by
  unfold do_mem_op
  rw [if_pos rfl]
  dsimp only
  split
  · right; rfl
  · left; rfl

/-- Over a whole memset walk, each physical byte is either untouched or
holds the written byte. -/
theorem mmu_mem_op_loop_memset_physMem (ctx : mmu_context) :
    ∀ fuel m addr size value t2c t3c x,
      (mmu_mem_op_loop ctx MMU_MEM_SET fuel m addr size value t2c t3c).2.physMem x =
        m.physMem x ∨
      (mmu_mem_op_loop ctx MMU_MEM_SET fuel m addr size value t2c t3c).2.physMem x =
        value % 256 := by
  intro fuel
  induction fuel with
  | zero => intro m addr size value t2c t3c x; left; rfl
  | succ f ih =>
    intro m addr size value t2c t3c x
    have key : ∀ p q A S t2 t3opt,
        (mmu_mem_op_loop ctx MMU_MEM_SET f (do_mem_op m p q MMU_MEM_SET value).1 A S
          (do_mem_op m p q MMU_MEM_SET value).2 t2 t3opt).2.physMem x = m.physMem x ∨
        (mmu_mem_op_loop ctx MMU_MEM_SET f (do_mem_op m p q MMU_MEM_SET value).1 A S
          (do_mem_op m p q MMU_MEM_SET value).2 t2 t3opt).2.physMem x = value % 256 := by
      intro p q A S t2 t3opt
      rw [do_mem_op_set_value]
      rcases do_mem_op_set_physMem m p q value x with h2 | h2
      · rcases ih (do_mem_op m p q MMU_MEM_SET value).1 A S value t2 t3opt x with h | h
        · left; exact h.trans h2
        · right; exact h
      · rcases ih (do_mem_op m p q MMU_MEM_SET value).1 A S value t2 t3opt x with h | h
        · right; exact h.trans h2
        · right; exact h
    rw [mmu_mem_op_loop]
    split
    · left; rfl
    · split
      · left; rfl
      · split
        · dsimp only
          split
          · left; rfl
          · split
            · split
              · left; rfl
              · exact key _ _ _ _ _ _
            · exact key _ _ _ _ _ _
        · split
          · dsimp only
            split
            · left; rfl
            · exact key _ _ _ _ _ _
          · left; rfl

/-- Transport of `ttl3_of` along equal table memory. -/
theorem ttl3_of_congr_mem {m m' : MmuState} (h : m'.tableMem = m.tableMem)
    (ctx : mmu_context) (a : Nat) : ttl3_of m' ctx a = ttl3_of m ctx a := by
  unfold ttl3_of
  rw [get_ttl2_pure_eq, get_ttl2_pure_eq, h]

/-- Transport of `small_mapped` along equal table memory. -/
theorem small_mapped_congr_mem {m m' : MmuState} (h : m'.tableMem = m.tableMem)
    (ctx : mmu_context) (a : Nat) : small_mapped m' ctx a = small_mapped m ctx a := by
  unfold small_mapped
  rw [ttl3_of_congr_mem h, h]

/-- Transport of `resolve_page` along equal table memory. -/
theorem resolve_page_congr_mem {m m' : MmuState} (h : m'.tableMem = m.tableMem)
    (ctx : mmu_context) (a : Nat) : resolve_page m' ctx a = resolve_page m ctx a := by
  unfold resolve_page
  rw [get_ttl2_pure_eq, get_ttl2_pure_eq, h]

theorem get_ttl2_fst_pure (m : MmuState) (ctx : mmu_context) (a : Nat) :
    (get_ttl2 m ctx a false).1 = get_ttl2_pure m ctx a := rfl

/-- Unpack a `small_mapped` page: the directory entry is a present
table entry and the page-table entry is present. -/
theorem small_mapped_elim {m : MmuState} {ctx : mmu_context} {a : Nat}
    (h : small_mapped m ctx a = true) :
    ∃ t2, get_ttl2_pure m ctx a = some t2 ∧
      m.tableMem (t2 + 8 * (a % ARM64_TTL2_RANGE / ARM64_TTL3_RANGE)) % 2 = 1 ∧
      m.tableMem (t2 + 8 * (a % ARM64_TTL2_RANGE / ARM64_TTL3_RANGE)) /
        ARM64_TTE_TABLE % 2 = 1 ∧
      m.tableMem (tte_addr (m.tableMem (t2 + 8 * (a % ARM64_TTL2_RANGE / ARM64_TTL3_RANGE))) +
        8 * (a % ARM64_TTL3_RANGE / PAGE_SIZE)) % 2 = 1 := by
  unfold small_mapped ttl3_of at h
  cases hg : get_ttl2_pure m ctx a with
  | none => rw [hg] at h; simp at h
  | some t2 =>
    rw [hg] at h
    dsimp only at h
    by_cases hc : m.tableMem (t2 + 8 * (a % ARM64_TTL2_RANGE / ARM64_TTL3_RANGE)) % 2 = 1 ∧
        m.tableMem (t2 + 8 * (a % ARM64_TTL2_RANGE / ARM64_TTL3_RANGE)) /
          ARM64_TTE_TABLE % 2 = 1
    · rw [if_pos hc] at h
      exact ⟨t2, rfl, hc.1, hc.2, by simpa using h⟩
    · rw [if_neg hc] at h
      simp at h

/-- `resolve_page` on a page whose directory entry is a present table
entry reduces to the page-table entry. -/
theorem resolve_page_of_small {m : MmuState} {ctx : mmu_context} {a t2 : Nat}
    (hg : get_ttl2_pure m ctx a = some t2)
    (hp : m.tableMem (t2 + 8 * (a % ARM64_TTL2_RANGE / ARM64_TTL3_RANGE)) % 2 = 1)
    (ht : m.tableMem (t2 + 8 * (a % ARM64_TTL2_RANGE / ARM64_TTL3_RANGE)) /
      ARM64_TTE_TABLE % 2 = 1) :
    resolve_page m ctx a =
      if m.tableMem (tte_addr (m.tableMem (t2 + 8 * (a % ARM64_TTL2_RANGE / ARM64_TTL3_RANGE))) +
          8 * (a % ARM64_TTL3_RANGE / PAGE_SIZE)) % 2 = 0 then none
      else
        some (tte_addr (m.tableMem
          (tte_addr (m.tableMem (t2 + 8 * (a % ARM64_TTL2_RANGE / ARM64_TTL3_RANGE))) +
            8 * (a % ARM64_TTL3_RANGE / PAGE_SIZE))) + a % PAGE_SIZE) := by
  unfold resolve_page
  rw [hg]
  dsimp only
  rw [if_neg (by omega), if_pos ht]

/-- `resolve_page` is `none` when the TTL2 walk fails. -/
theorem resolve_page_ttl2_none {m : MmuState} {ctx : mmu_context} {a : Nat}
    (hg : get_ttl2_pure m ctx a = none) : resolve_page m ctx a = none := by
  unfold resolve_page
  rw [hg]

/-- `small_mapped` is false when the TTL2 walk fails. -/
theorem small_mapped_ttl2_none {m : MmuState} {ctx : mmu_context} {a : Nat}
    (hg : get_ttl2_pure m ctx a = none) : small_mapped m ctx a = false := by
  unfold small_mapped ttl3_of
  rw [hg]

set_option maxRecDepth 8192 in
/-- The memset walk over a small-page-mapped prefix of `k` pages
followed by an unmapped page returns false, having already set every
byte of the prefix's physical frames. -/
theorem mmu_mem_op_loop_memset_prefix (ctx : mmu_context) :
    ∀ k fuel (m : MmuState) (addr size value : Nat) (t2c t3c : Option Nat),
      size ≤ fuel →
      addr + size ≤ 2 ^ 64 →
      addr % PAGE_SIZE = 0 →
      PAGE_SIZE * k < size →
      (∀ i, i < k → small_mapped m ctx (addr + PAGE_SIZE * i) = true) →
      resolve_page m ctx (addr + PAGE_SIZE * k) = none →
      (∀ t, t2c = some t → addr % ARM64_TTL2_RANGE = 0 ∨ get_ttl2_pure m ctx addr = some t) →
      (∀ t, t3c = some t → addr % ARM64_TTL3_RANGE = 0 ∨ ttl3_of m ctx addr = some t) →
      (mmu_mem_op_loop ctx MMU_MEM_SET fuel m addr size value t2c t3c).1 = false ∧
      (∀ i p j, i < k → resolve_page m ctx (addr + PAGE_SIZE * i) = some p → j < PAGE_SIZE →
        (mmu_mem_op_loop ctx MMU_MEM_SET fuel m addr size value t2c t3c).2.physMem (p + j) =
          value % 256) := by
  intro k
  induction k with
  | zero =>
    intro fuel m addr size value t2c t3c hfuel hbound halign hksize hsmall htr hv2 hv3
    have hPS : PAGE_SIZE = 4096 := rfl
    have hR2 : ARM64_TTL2_RANGE = 1073741824 := rfl
    have hR3 : ARM64_TTL3_RANGE = 2097152 := rfl
    rw [hPS] at hksize
    have hsz : ¬ size = 0 := by omega
    cases fuel with
    | zero => omega
    | succ f =>
      rw [mmu_mem_op_loop, if_neg hsz]
      simp only [Nat.mul_zero, Nat.add_zero] at htr
      cases hT : (if t2c = none ∨ addr % ARM64_TTL2_RANGE = 0 then
          (get_ttl2 m ctx addr false).1 else t2c) with
      | none =>
        exact ⟨rfl, fun i p j hi _ _ => absurd hi (by omega)⟩
      | some ttl2 =>
        have hgeq : get_ttl2_pure m ctx addr = some ttl2 := by
          by_cases hc : t2c = none ∨ addr % ARM64_TTL2_RANGE = 0
          · rw [if_pos hc, get_ttl2_fst_pure] at hT; exact hT
          · rw [if_neg hc] at hT
            push_neg at hc
            rcases hv2 ttl2 hT with h | h
            · exact absurd h hc.2
            · exact h
        unfold resolve_page at htr
        rw [hgeq] at htr
        try dsimp only at htr
        try dsimp only
        by_cases hc3 : t3c = none ∨ addr % ARM64_TTL3_RANGE = 0
        · rw [if_pos hc3]
          try dsimp only
          by_cases hp : m.tableMem (ttl2 + 8 * (addr % ARM64_TTL2_RANGE / ARM64_TTL3_RANGE)) % 2 = 0
          · rw [if_pos hp]
            exact ⟨rfl, fun i p j hi _ _ => absurd hi (by omega)⟩
          · rw [if_neg hp] at htr ⊢
            by_cases htb : m.tableMem
                (ttl2 + 8 * (addr % ARM64_TTL2_RANGE / ARM64_TTL3_RANGE)) /
                  ARM64_TTE_TABLE % 2 = 1
            · rw [if_pos htb] at htr ⊢
              try dsimp only at htr
              try dsimp only
              by_cases he3 : m.tableMem
                  (tte_addr (m.tableMem (ttl2 + 8 * (addr % ARM64_TTL2_RANGE / ARM64_TTL3_RANGE))) +
                    8 * (addr % ARM64_TTL3_RANGE / PAGE_SIZE)) % 2 = 0
              · rw [if_pos he3]
                exact ⟨rfl, fun i p j hi _ _ => absurd hi (by omega)⟩
              · rw [if_neg he3] at htr
                simp at htr
            · rw [if_neg htb] at htr
              simp at htr
        · rw [if_neg hc3]
          push_neg at hc3
          obtain ⟨hc3n, hc3a⟩ := hc3
          cases t3c with
          | none => exact absurd rfl hc3n
          | some ttl3 =>
            try dsimp only
            rcases hv3 ttl3 rfl with h | h
            · exact absurd h hc3a
            · unfold ttl3_of at h
              rw [hgeq] at h
              try dsimp only at h
              by_cases hc : m.tableMem
                  (ttl2 + 8 * (addr % ARM64_TTL2_RANGE / ARM64_TTL3_RANGE)) % 2 = 1 ∧
                  m.tableMem (ttl2 + 8 * (addr % ARM64_TTL2_RANGE / ARM64_TTL3_RANGE)) /
                    ARM64_TTE_TABLE % 2 = 1
              · rw [if_pos hc] at h
                have hteq : tte_addr (m.tableMem
                    (ttl2 + 8 * (addr % ARM64_TTL2_RANGE / ARM64_TTL3_RANGE))) = ttl3 := by
                  injection h
                rw [if_neg (by omega : ¬ m.tableMem
                    (ttl2 + 8 * (addr % ARM64_TTL2_RANGE / ARM64_TTL3_RANGE)) % 2 = 0),
                  if_pos hc.2] at htr
                try dsimp only at htr
                rw [hteq] at htr
                by_cases he3 : m.tableMem
                    (ttl3 + 8 * (addr % ARM64_TTL3_RANGE / PAGE_SIZE)) % 2 = 0
                · rw [if_pos he3]
                  exact ⟨rfl, fun i p j hi _ _ => absurd hi (by omega)⟩
                · rw [if_neg he3] at htr
                  simp at htr
              · rw [if_neg hc] at h
                simp at h
  | succ K ih =>
    intro fuel m addr size value t2c t3c hfuel hbound halign hksize hsmall htr hv2 hv3
    have hPS : PAGE_SIZE = 4096 := rfl
    have hR2 : ARM64_TTL2_RANGE = 1073741824 := rfl
    have hR3 : ARM64_TTL3_RANGE = 2097152 := rfl
    rw [hPS] at hksize
    have hsz : ¬ size = 0 := by omega
    have hsize4096 : PAGE_SIZE < size := by omega
    cases fuel with
    | zero => omega
    | succ f =>
      rw [mmu_mem_op_loop, if_neg hsz]
      have hsm0 : small_mapped m ctx addr = true := by
        have h0 := hsmall 0 (by omega)
        simpa using h0
      obtain ⟨t2z, hg, hpde, htab, hpte⟩ := small_mapped_elim hsm0
      cases hT : (if t2c = none ∨ addr % ARM64_TTL2_RANGE = 0 then
          (get_ttl2 m ctx addr false).1 else t2c) with
      | none =>
        exfalso
        by_cases hc : t2c = none ∨ addr % ARM64_TTL2_RANGE = 0
        · rw [if_pos hc, get_ttl2_fst_pure] at hT
          rw [hT] at hg
          cases hg
        · rw [if_neg hc] at hT
          push_neg at hc
          exact hc.1 hT
      | some ttl2 =>
        have hgeq : get_ttl2_pure m ctx addr = some ttl2 := by
          by_cases hc : t2c = none ∨ addr % ARM64_TTL2_RANGE = 0
          · rw [if_pos hc, get_ttl2_fst_pure] at hT; exact hT
          · rw [if_neg hc] at hT
            push_neg at hc
            rcases hv2 ttl2 hT with h | h
            · exact absurd h hc.2
            · exact h
        have ht2z : t2z = ttl2 := by
          rw [hgeq] at hg
          exact (Option.some.inj hg).symm
        subst t2z
        -- the shared successful step
        have hps : min (PAGE_SIZE - addr % PAGE_SIZE) size = PAGE_SIZE := by omega
        have hwrap : (addr + PAGE_SIZE) % 2 ^ 64 = addr + PAGE_SIZE := by omega
        have hstep :
            (mmu_mem_op_loop ctx MMU_MEM_SET f
              (do_mem_op m
                (tte_addr (m.tableMem
                  (tte_addr (m.tableMem (ttl2 + 8 * (addr % ARM64_TTL2_RANGE / ARM64_TTL3_RANGE))) +
                    8 * (addr % ARM64_TTL3_RANGE / PAGE_SIZE))) + addr % PAGE_SIZE)
                (min (PAGE_SIZE - addr % PAGE_SIZE) size) MMU_MEM_SET value).1
              ((addr + min (PAGE_SIZE - addr % PAGE_SIZE) size) % 2 ^ 64)
              (size - min (PAGE_SIZE - addr % PAGE_SIZE) size)
              (do_mem_op m
                (tte_addr (m.tableMem
                  (tte_addr (m.tableMem (ttl2 + 8 * (addr % ARM64_TTL2_RANGE / ARM64_TTL3_RANGE))) +
                    8 * (addr % ARM64_TTL3_RANGE / PAGE_SIZE))) + addr % PAGE_SIZE)
                (min (PAGE_SIZE - addr % PAGE_SIZE) size) MMU_MEM_SET value).2
              (some ttl2)
              (some (tte_addr (m.tableMem
                (ttl2 + 8 * (addr % ARM64_TTL2_RANGE / ARM64_TTL3_RANGE)))))).1 = false ∧
            (∀ i p j, i < K + 1 →
              resolve_page m ctx (addr + PAGE_SIZE * i) = some p → j < PAGE_SIZE →
              (mmu_mem_op_loop ctx MMU_MEM_SET f
                (do_mem_op m
                  (tte_addr (m.tableMem
                    (tte_addr (m.tableMem (ttl2 + 8 * (addr % ARM64_TTL2_RANGE / ARM64_TTL3_RANGE))) +
                      8 * (addr % ARM64_TTL3_RANGE / PAGE_SIZE))) + addr % PAGE_SIZE)
                  (min (PAGE_SIZE - addr % PAGE_SIZE) size) MMU_MEM_SET value).1
                ((addr + min (PAGE_SIZE - addr % PAGE_SIZE) size) % 2 ^ 64)
                (size - min (PAGE_SIZE - addr % PAGE_SIZE) size)
                (do_mem_op m
                  (tte_addr (m.tableMem
                    (tte_addr (m.tableMem (ttl2 + 8 * (addr % ARM64_TTL2_RANGE / ARM64_TTL3_RANGE))) +
                      8 * (addr % ARM64_TTL3_RANGE / PAGE_SIZE))) + addr % PAGE_SIZE)
                  (min (PAGE_SIZE - addr % PAGE_SIZE) size) MMU_MEM_SET value).2
                (some ttl2)
                (some (tte_addr (m.tableMem
                  (ttl2 + 8 * (addr % ARM64_TTL2_RANGE / ARM64_TTL3_RANGE)))))).2.physMem (p + j) =
                value % 256) := by
          rw [hps, hwrap, do_mem_op_set_value]
          have hmem : (do_mem_op m
              (tte_addr (m.tableMem
                (tte_addr (m.tableMem (ttl2 + 8 * (addr % ARM64_TTL2_RANGE / ARM64_TTL3_RANGE))) +
                  8 * (addr % ARM64_TTL3_RANGE / PAGE_SIZE))) + addr % PAGE_SIZE)
              PAGE_SIZE MMU_MEM_SET value).1.tableMem = m.tableMem :=
            do_mem_op_tableMem _ _ _ _ _
          have hresolved : resolve_page m ctx addr =
              some (tte_addr (m.tableMem
                (tte_addr (m.tableMem (ttl2 + 8 * (addr % ARM64_TTL2_RANGE / ARM64_TTL3_RANGE))) +
                  8 * (addr % ARM64_TTL3_RANGE / PAGE_SIZE))) + addr % PAGE_SIZE) := by
            rw [resolve_page_of_small hgeq hpde htab, if_neg (by omega)]
          obtain ⟨IH1, IH2⟩ := ih f
            ((do_mem_op m
              (tte_addr (m.tableMem
                (tte_addr (m.tableMem (ttl2 + 8 * (addr % ARM64_TTL2_RANGE / ARM64_TTL3_RANGE))) +
                  8 * (addr % ARM64_TTL3_RANGE / PAGE_SIZE))) + addr % PAGE_SIZE)
              PAGE_SIZE MMU_MEM_SET value).1)
            (addr + PAGE_SIZE) (size - PAGE_SIZE) value (some ttl2)
            (some (tte_addr (m.tableMem (ttl2 + 8 * (addr % ARM64_TTL2_RANGE / ARM64_TTL3_RANGE)))))
            (by rw [hPS]; omega)
            (by rw [hPS]; omega)
            (by rw [hPS] at halign ⊢; omega)
            (by rw [hPS]; omega)
            (by
              intro i hi
              rw [small_mapped_congr_mem hmem]
              have hs := hsmall (i + 1) (by omega)
              have harith : addr + PAGE_SIZE * (i + 1) = addr + PAGE_SIZE + PAGE_SIZE * i := by
                ring
              rwa [harith] at hs)
            (by
              rw [resolve_page_congr_mem hmem]
              have harith : addr + PAGE_SIZE * (K + 1) = addr + PAGE_SIZE + PAGE_SIZE * K := by
                ring
              rwa [harith] at htr)
            (by
              intro t ht
              injection ht with ht
              subst ht
              by_cases hb : (addr + PAGE_SIZE) % ARM64_TTL2_RANGE = 0
              · exact Or.inl hb
              · right
                have hreg : (addr + PAGE_SIZE) / ARM64_TTL2_RANGE = addr / ARM64_TTL2_RANGE := by
                  rw [hPS] at halign ⊢
                  rw [hR2] at hb ⊢
                  omega
                rw [get_ttl2_pure_eq, hmem, lookup_ttl2_congr m.tableMem ctx hreg,
                  ← get_ttl2_pure_eq]
                exact hgeq)
            (by
              intro t ht
              injection ht with ht
              subst ht
              by_cases hb : (addr + PAGE_SIZE) % ARM64_TTL3_RANGE = 0
              · exact Or.inl hb
              · right
                have hreg : (addr + PAGE_SIZE) / ARM64_TTL3_RANGE = addr / ARM64_TTL3_RANGE := by
                  rw [hPS] at halign ⊢
                  rw [hR3] at hb ⊢
                  omega
                rw [ttl3_of_congr_mem hmem, ttl3_of_congr _ ctx hreg]
                unfold ttl3_of
                rw [hgeq]
                try dsimp only
                rw [if_pos ⟨hpde, htab⟩])
          refine ⟨IH1, ?_⟩
          intro i p j hi hres hj
          cases i with
          | zero =>
            simp only [Nat.mul_zero, Nat.add_zero] at hres
            rw [hresolved] at hres
            injection hres with hres
            subst hres
            rcases mmu_mem_op_loop_memset_physMem ctx f _ (addr + PAGE_SIZE)
                (size - PAGE_SIZE) value (some ttl2) _ (tte_addr (m.tableMem
                  (tte_addr (m.tableMem (ttl2 + 8 * (addr % ARM64_TTL2_RANGE / ARM64_TTL3_RANGE))) +
                    8 * (addr % ARM64_TTL3_RANGE / PAGE_SIZE))) + addr % PAGE_SIZE + j)
              with h | h
            · rw [h]
              unfold do_mem_op
              rw [if_pos rfl]
              try dsimp only
              rw [if_pos ⟨Nat.le_add_right _ _, by omega⟩]
            · exact h
          | succ i' =>
            have harith : addr + PAGE_SIZE * (i' + 1) = addr + PAGE_SIZE + PAGE_SIZE * i' := by
              ring
            refine IH2 i' p j (by omega) ?_ hj
            rw [resolve_page_congr_mem hmem, ← harith]
            exact hres
        try dsimp only
        by_cases hc3 : t3c = none ∨ addr % ARM64_TTL3_RANGE = 0
        · rw [if_pos hc3]
          try dsimp only
          rw [if_neg (by omega : ¬ m.tableMem
              (ttl2 + 8 * (addr % ARM64_TTL2_RANGE / ARM64_TTL3_RANGE)) % 2 = 0),
            if_pos htab]
          try dsimp only
          rw [if_neg (by omega : ¬ m.tableMem
              (tte_addr (m.tableMem (ttl2 + 8 * (addr % ARM64_TTL2_RANGE / ARM64_TTL3_RANGE))) +
                8 * (addr % ARM64_TTL3_RANGE / PAGE_SIZE)) % 2 = 0)]
          exact hstep
        · rw [if_neg hc3]
          push_neg at hc3
          obtain ⟨hc3n, hc3a⟩ := hc3
          cases t3c with
          | none => exact absurd rfl hc3n
          | some ttl3 =>
            try dsimp only
            rcases hv3 ttl3 rfl with h | h
            · exact absurd h hc3a
            · unfold ttl3_of at h
              rw [hgeq] at h
              try dsimp only at h
              rw [if_pos ⟨hpde, htab⟩] at h
              have hteq : tte_addr (m.tableMem
                  (ttl2 + 8 * (addr % ARM64_TTL2_RANGE / ARM64_TTL3_RANGE))) = ttl3 := by
                injection h
              rw [← hteq]
              rw [if_neg (by omega : ¬ m.tableMem
                  (tte_addr (m.tableMem (ttl2 + 8 * (addr % ARM64_TTL2_RANGE / ARM64_TTL3_RANGE))) +
                    8 * (addr % ARM64_TTL3_RANGE / PAGE_SIZE)) % 2 = 0)]
              exact hstep

set_option maxRecDepth 8192 in
set_option maxHeartbeats 1000000 in
/-- C10: a canonical range that starts in mapped pages but contains an
unmapped page makes the operation fail — yet not atomically.  For
`mmu_memset`, over any context whose first `k` pages are small-mapped
with the page after them unmapped, the call returns false and every
byte of the mapped prefix's physical frames has been set.  For
`mmu_memcpy_to`, copying 8 KiB into a context whose first page maps to
`0x100000` with the second page unmapped returns false with the prefix
bytes already copied from the source buffer (sampled across the
page). -/
theorem mmu_mem_op_failed_writes_prefix :
    (∀ (m : MmuState) (ctx : mmu_context) (addr size k value : Nat),
      is_canonical_range addr size = true →
      addr + size ≤ 2 ^ 64 →
      addr % PAGE_SIZE = 0 →
      PAGE_SIZE * k < size →
      (∀ i, i < k → small_mapped m ctx (addr + PAGE_SIZE * i) = true) →
      resolve_page m ctx (addr + PAGE_SIZE * k) = none →
      (mmu_memset m ctx addr value size).1 = false ∧
      (∀ i p j, i < k → resolve_page m ctx (addr + PAGE_SIZE * i) = some p → j < PAGE_SIZE →
        (mmu_memset m ctx addr value size).2.physMem (p + j) = value % 256)) ∧
    ((mmu_memcpy_to memOpState memOpCtx 0 0x7000 0x2000).1 = false ∧
      ∀ j : Fin 4096, (j : Nat) = 0 ∨ (j : Nat) = 1 ∨ (j : Nat) = 2047 ∨ (j : Nat) = 4095 →
        (mmu_memcpy_to memOpState memOpCtx 0 0x7000 0x2000).2.physMem (0x100000 + (j : Nat)) =
          (0x7000 + (j : Nat)) % 256) := by
  constructor
  · intro m ctx addr size k value hcanon hbound halign hk hsmall hres
    unfold mmu_memset mmu_mem_op
    rw [if_neg (by rw [hcanon]; simp)]
    exact mmu_mem_op_loop_memset_prefix ctx k size m addr size value none none le_rfl
      hbound halign hk hsmall hres (fun t ht => nomatch ht) (fun t ht => nomatch ht)
  · refine ⟨by decide, ?_⟩
    intro j hj
    rcases hj with h | h | h | h <;>
      · rw [show ((j : Nat)) = _ from h]
        decide

/-- Witness for C10: memset of 8 KiB at 0 over the one-page context
fails, yet physical byte `0x100000` was already set to `0xAB`. -/
theorem mmu_mem_op_failed_writes_prefix_witness :
    (mmu_memset memOpState memOpCtx 0 0xAB 0x2000).1 = false ∧
    (mmu_memset memOpState memOpCtx 0 0xAB 0x2000).2.physMem 0x100000 = 0xAB := by
  have h := mmu_mem_op_failed_writes_prefix.1 memOpState memOpCtx 0 0x2000 1 0xAB
    (by decide) (by decide) (by decide) (by decide)
    (by
      intro i hi
      have hi0 : i = 0 := by omega
      subst hi0
      decide)
    (by decide)
  refine ⟨h.1, ?_⟩
  have h2 := h.2 0 0x100000 0 (by decide) (by decide) (by decide)
  simpa using h2
